import Mathlib

/-!
Verification development for the category-draft-coach valuation engine.

Numbers are modelled as rationals (`ℚ`); JavaScript's optional numeric fields
become `Option ℚ`, with the `?? 0` defaulting written `Option.getD`. Stateful
loops are explicit folds, and the seeded PRNG threads its state by value.
-/

namespace DraftCoach

set_option maxRecDepth 2000

/-- Role tag of a player: hitter or pitcher (string union in `types.ts`). -/
inductive Role where
  | hitter
  | pitcher
deriving DecidableEq

/-- Shallow embedding of the `Player` record from `src/lib/types.ts`.
Sparse optional projection fields are `Option ℚ`. -/
structure Player where
  playerId : String
  name : String
  team : String
  positions : List String
  hitterOrPitcher : Role
  AB : Option ℚ := none
  H : Option ℚ := none
  R : Option ℚ := none
  HR : Option ℚ := none
  RBI : Option ℚ := none
  SB : Option ℚ := none
  BB : Option ℚ := none
  HBP : Option ℚ := none
  SF : Option ℚ := none
  AVG : Option ℚ := none
  OBP : Option ℚ := none
  W : Option ℚ := none
  SV : Option ℚ := none
  K : Option ℚ := none
  IP : Option ℚ := none
  ER : Option ℚ := none
  HA : Option ℚ := none
  BBA : Option ℚ := none
  ERA : Option ℚ := none
  WHIP : Option ℚ := none
  QS : Option ℚ := none
  HLD : Option ℚ := none
  ADP : Option ℚ := none
  overallRank : Option ℚ := none
  risk : Option ℚ := none
deriving DecidableEq

/-- Shallow embedding of `RosterSlot` from `src/lib/types.ts`. -/
structure RosterSlot where
  id : String
  label : String
  eligiblePositions : List String
  player : Option Player
deriving DecidableEq

/-- Slot template entry of `RosterConfig` from `src/lib/types.ts`. -/
structure SlotTemplate where
  label : String
  eligiblePositions : List String
deriving DecidableEq

/-- Shallow embedding of `RosterConfig`. -/
structure RosterConfig where
  slots : List SlotTemplate
deriving DecidableEq

/-- Category definition from `src/lib/types.ts` (`direction` is the string
union, modelled as a Bool `higherIsBetter`: `true` for "higher"). -/
structure CategoryDef where
  key : String
  label : String
  higherIsBetter : Bool
  enabled : Bool
  isHitterCat : Bool
deriving DecidableEq

/-- Shallow embedding of `LeagueSettings` from `src/lib/types.ts`.
The `targets` record becomes a lookup function returning `Option ℚ`. -/
structure LeagueSettings where
  numTeams : Nat
  categories : List CategoryDef
  rosterConfig : RosterConfig
  targets : String → Option ℚ
  useOBP : Bool
  benchMultiplier : ℚ
  competitiveThresholdZ : ℚ

-- ── Stat Aggregator (src/lib/stats.ts) ────────────────────────────

/-- Shallow embedding of the `RosterTotals` record from `src/lib/stats.ts`. -/
structure RosterTotals where
  R : ℚ
  HR : ℚ
  RBI : ℚ
  SB : ℚ
  AB : ℚ
  H : ℚ
  BB : ℚ
  HBP : ℚ
  SF : ℚ
  AVG : ℚ
  OBP : ℚ
  W : ℚ
  SV : ℚ
  K : ℚ
  QS : ℚ
  HLD : ℚ
  IP : ℚ
  ER : ℚ
  HA : ℚ
  BBA : ℚ
  ERA : ℚ
  WHIP : ℚ

/-- The per-slot weight used by `computeRosterTotalsFromSlots`: the bench
multiplier for slots whose upper-cased label starts with "BN", else 1. -/
def slotWeight (label : String) (benchMultiplier : ℚ) : ℚ :=
  if (label.toUpper).startsWith ("BN") then benchMultiplier else 1

/-- The (player, weight) pairs of a given role collected from occupied slots,
as built by the first loop of `computeRosterTotalsFromSlots`. -/
def weightedRosterPlayers (slots : List RosterSlot) (benchMultiplier : ℚ)
    (role : Role) : List (Player × ℚ) :=
  slots.foldr
    (fun slot acc =>
      match slot.player with
      | none => acc
      | some player =>
        if player.hitterOrPitcher = role then
          (player, slotWeight slot.label benchMultiplier) :: acc
        else acc)
    []

/-- Weighted reduce used by `computeRosterTotalsFromSlots`:
`list.reduce((s, x) => s + (field ?? 0) * m, 0)`. -/
def wreduce (l : List (Player × ℚ)) (field : Player → Option ℚ) : ℚ :=
  l.foldl (fun s x => s + (field x.1).getD 0 * x.2) 0

/-- Shallow embedding of `computeRosterTotalsFromSlots` from `src/lib/stats.ts`. -/
def computeRosterTotalsFromSlots (slots : List RosterSlot)
    (benchMultiplier : ℚ) : RosterTotals :=
  let hitters := weightedRosterPlayers slots benchMultiplier Role.hitter
  let pitchers := weightedRosterPlayers slots benchMultiplier Role.pitcher
  let AB := wreduce hitters (fun p => p.AB)
  let H := wreduce hitters (fun p => p.H)
  let R := wreduce hitters (fun p => p.R)
  let HR := wreduce hitters (fun p => p.HR)
  let RBI := wreduce hitters (fun p => p.RBI)
  let SB := wreduce hitters (fun p => p.SB)
  let BB := wreduce hitters (fun p => p.BB)
  let HBP := wreduce hitters (fun p => p.HBP)
  let SF := wreduce hitters (fun p => p.SF)
  let AVG := if AB > 0 then H / AB else 0
  let obpDenom := AB + BB + HBP + SF
  let OBP := if obpDenom > 0 then (H + BB + HBP) / obpDenom else 0
  let IP := wreduce pitchers (fun p => p.IP)
  let ER := wreduce pitchers (fun p => p.ER)
  let HA := wreduce pitchers (fun p => p.HA)
  let BBA := wreduce pitchers (fun p => p.BBA)
  let W := wreduce pitchers (fun p => p.W)
  let SV := wreduce pitchers (fun p => p.SV)
  let K := wreduce pitchers (fun p => p.K)
  let QS := wreduce pitchers (fun p => p.QS)
  let HLD := wreduce pitchers (fun p => p.HLD)
  let ERA := if IP > 0 then ER * 9 / IP else 0
  let WHIP := if IP > 0 then (BBA + HA) / IP else 0
  { R := R, HR := HR, RBI := RBI, SB := SB, AB := AB, H := H, BB := BB,
    HBP := HBP, SF := SF, AVG := AVG, OBP := OBP, W := W, SV := SV, K := K,
    QS := QS, HLD := HLD, IP := IP, ER := ER, HA := HA, BBA := BBA,
    ERA := ERA, WHIP := WHIP }

/-- Unweighted reduce used by `computeRosterTotals`:
`list.reduce((s, p) => s + (field ?? 0), 0)`. -/
def ureduce (l : List Player) (field : Player → Option ℚ) : ℚ :=
  l.foldl (fun s p => s + (field p).getD 0) 0

/-- Shallow embedding of `computeRosterTotals` from `src/lib/stats.ts`. -/
def computeRosterTotals (players : List Player) : RosterTotals :=
  let hitters := players.filter (fun p => p.hitterOrPitcher = Role.hitter)
  let pitchers := players.filter (fun p => p.hitterOrPitcher = Role.pitcher)
  let AB := ureduce hitters (fun p => p.AB)
  let H := ureduce hitters (fun p => p.H)
  let R := ureduce hitters (fun p => p.R)
  let HR := ureduce hitters (fun p => p.HR)
  let RBI := ureduce hitters (fun p => p.RBI)
  let SB := ureduce hitters (fun p => p.SB)
  let BB := ureduce hitters (fun p => p.BB)
  let HBP := ureduce hitters (fun p => p.HBP)
  let SF := ureduce hitters (fun p => p.SF)
  let AVG := if AB > 0 then H / AB else 0
  let obpDenom := AB + BB + HBP + SF
  let OBP := if obpDenom > 0 then (H + BB + HBP) / obpDenom else 0
  let IP := ureduce pitchers (fun p => p.IP)
  let ER := ureduce pitchers (fun p => p.ER)
  let HA := ureduce pitchers (fun p => p.HA)
  let BBA := ureduce pitchers (fun p => p.BBA)
  let W := ureduce pitchers (fun p => p.W)
  let SV := ureduce pitchers (fun p => p.SV)
  let K := ureduce pitchers (fun p => p.K)
  let QS := ureduce pitchers (fun p => p.QS)
  let HLD := ureduce pitchers (fun p => p.HLD)
  let ERA := if IP > 0 then ER * 9 / IP else 0
  let WHIP := if IP > 0 then (BBA + HA) / IP else 0
  { R := R, HR := HR, RBI := RBI, SB := SB, AB := AB, H := H, BB := BB,
    HBP := HBP, SF := SF, AVG := AVG, OBP := OBP, W := W, SV := SV, K := K,
    QS := QS, HLD := HLD, IP := IP, ER := ER, HA := HA, BBA := BBA,
    ERA := ERA, WHIP := WHIP }

/-- Shallow embedding of `getCategoryValue` from `src/lib/stats.ts`
(dynamic field lookup by category key, defaulting to 0). -/
def getCategoryValue (totals : RosterTotals) (catKey : String) : ℚ :=
  match catKey with
  | "R" => totals.R
  | "HR" => totals.HR
  | "RBI" => totals.RBI
  | "SB" => totals.SB
  | "AB" => totals.AB
  | "H" => totals.H
  | "BB" => totals.BB
  | "HBP" => totals.HBP
  | "SF" => totals.SF
  | "AVG" => totals.AVG
  | "OBP" => totals.OBP
  | "W" => totals.W
  | "SV" => totals.SV
  | "K" => totals.K
  | "QS" => totals.QS
  | "HLD" => totals.HLD
  | "IP" => totals.IP
  | "ER" => totals.ER
  | "HA" => totals.HA
  | "BBA" => totals.BBA
  | "ERA" => totals.ERA
  | "WHIP" => totals.WHIP
  | _ => 0

/-- `RATE_PRIORS.hitterAB` from `src/lib/stats.ts`. -/
def ratePriorHitterAB : ℚ := 1000

/-- `RATE_PRIORS.pitcherIP` from `src/lib/stats.ts`. -/
def ratePriorPitcherIP : ℚ := 200

/-- `RATE_FULL_THRESHOLDS.hitterAB` from `src/lib/stats.ts`. -/
def rateFullThresholdHitterAB : ℚ := 3500

/-- `RATE_FULL_THRESHOLDS.pitcherIP` from `src/lib/stats.ts`. -/
def rateFullThresholdPitcherIP : ℚ := 900

/-- Shallow embedding of `getCategoryValueForZ` from `src/lib/stats.ts`:
the stabilized category value used in z-score computations. The chain of
early returns on `catKey` becomes a match on the string key. -/
def getCategoryValueForZ (totals : RosterTotals) (catKey : String)
    (mean : ℚ) : ℚ :=
  match catKey with
  | "AVG" =>
    let AB := totals.AB
    let H := totals.H
    if AB ≤ 0 then mean
    else if AB ≥ rateFullThresholdHitterAB then totals.AVG
    else (H + mean * ratePriorHitterAB) / (AB + ratePriorHitterAB)
  | "OBP" =>
    let num := totals.H + totals.BB + totals.HBP
    let denom := totals.AB + totals.BB + totals.HBP + totals.SF
    if denom ≤ 0 then mean
    else if denom ≥ rateFullThresholdHitterAB then totals.OBP
    else (num + mean * ratePriorHitterAB) / (denom + ratePriorHitterAB)
  | "ERA" =>
    let IP := totals.IP
    let ER := totals.ER
    if IP ≤ 0 then mean
    else if IP ≥ rateFullThresholdPitcherIP then totals.ERA
    else
      let priorER := mean * ratePriorPitcherIP / 9
      (ER + priorER) * 9 / (IP + ratePriorPitcherIP)
  | "WHIP" =>
    let IP := totals.IP
    let baserunners := totals.BBA + totals.HA
    if IP ≤ 0 then mean
    else if IP ≥ rateFullThresholdPitcherIP then totals.WHIP
    else (baserunners + mean * ratePriorPitcherIP) / (IP + ratePriorPitcherIP)
  | _ => getCategoryValue totals catKey

/-- Shallow embedding of `computeZScore` from `src/lib/stats.ts`. -/
def computeZScore (value mean std : ℚ) (higherIsBetter : Bool) : ℚ :=
  if std = 0 then 0
  else if higherIsBetter then (value - mean) / std
  else (mean - value) / std

-- ── Generic list lemmas used throughout ───────────────────────────

theorem foldl_add_eq_sum {α : Type} (f : α → ℚ) :
    ∀ (l : List α) (a : ℚ), l.foldl (fun s x => s + f x) a = a + (l.map f).sum := by
  intro l
  induction l with
  | nil => intro a; simp
  | cons x xs ih =>
    intro a
    simp only [List.foldl_cons, List.map_cons, List.sum_cons]
    rw [ih]
    ring

theorem wreduce_eq_sum (l : List (Player × ℚ)) (field : Player → Option ℚ) :
    wreduce l field = (l.map (fun x => (field x.1).getD 0 * x.2)).sum := by
  unfold wreduce
  rw [foldl_add_eq_sum]
  simp

-- ── Example data used in concrete test conjuncts ──────────────────

/-- A hitter with 1 at-bat and 1 hit (the spec's counter-test). -/
def hitterOneForOne : Player :=
  { playerId := "h1", name := "One For One", team := "AAA",
    positions := ["OF"], hitterOrPitcher := Role.hitter,
    AB := some 1, H := some 1 }

/-- A hitter with 999 at-bats and 0 hits (the spec's counter-test). -/
def hitterZeroFor999 : Player :=
  { playerId := "h2", name := "Zero For 999", team := "BBB",
    positions := ["OF"], hitterOrPitcher := Role.hitter,
    AB := some 999, H := some 0 }

/-- Two non-bench slots holding the two counter-test hitters. -/
def counterTestSlots : List RosterSlot :=
  [ { id := "OF1_6", label := "OF1", eligiblePositions := ["OF"],
      player := some hitterOneForOne },
    { id := "OF2_7", label := "OF2", eligiblePositions := ["OF"],
      player := some hitterZeroFor999 } ]

/-- A hitter projected for zero at-bats. -/
def hitterNoAB : Player :=
  { playerId := "h0", name := "No At Bats", team := "CCC",
    positions := ["C"], hitterOrPitcher := Role.hitter,
    AB := some 0, H := some 0 }

/-- A roster whose only hitter has zero at-bats (Scenario A of the spec). -/
def zeroABSlots : List RosterSlot :=
  [ { id := "C_1", label := "C", eligiblePositions := ["C"],
      player := some hitterNoAB } ]

-- ── C1 ────────────────────────────────────────────────────────────

/-- C1: for every roster given as slot assignments (weight 1 for non-bench
slots, the bench multiplier for bench slots), the Stat Aggregator computes
each ratio category from summed weighted components — AVG = ΣH/ΣAB,
OBP = Σ(H+BB+HBP)/Σ(AB+BB+HBP+SF), ERA = ΣER·9/ΣIP, WHIP = Σ(BBA+HA)/ΣIP —
with raw fallback 0 on a zero denominator sum; and on the spec's
counter-test roster (AB=1/H=1 and AB=999/H=0) AVG is 1/1000, not the 0.5
mean of per-player ratios. -/
theorem computeRosterTotalsFromSlots_ratios (slots : List RosterSlot) (bm : ℚ) :
    (let t := computeRosterTotalsFromSlots slots bm
     let hs := weightedRosterPlayers slots bm Role.hitter
     let ps := weightedRosterPlayers slots bm Role.pitcher
     let wsum := fun (l : List (Player × ℚ)) (f : Player → Option ℚ) =>
       (l.map (fun x => (f x.1).getD 0 * x.2)).sum
     (t.AVG = if wsum hs (fun p => p.AB) > 0
        then wsum hs (fun p => p.H) / wsum hs (fun p => p.AB) else 0) ∧
     (t.OBP =
       if wsum hs (fun p => p.AB) + wsum hs (fun p => p.BB)
          + wsum hs (fun p => p.HBP) + wsum hs (fun p => p.SF) > 0
       then (wsum hs (fun p => p.H) + wsum hs (fun p => p.BB)
             + wsum hs (fun p => p.HBP))
            / (wsum hs (fun p => p.AB) + wsum hs (fun p => p.BB)
               + wsum hs (fun p => p.HBP) + wsum hs (fun p => p.SF))
       else 0) ∧
     (t.ERA = if wsum ps (fun p => p.IP) > 0
        then wsum ps (fun p => p.ER) * 9 / wsum ps (fun p => p.IP) else 0) ∧
     (t.WHIP = if wsum ps (fun p => p.IP) > 0
        then (wsum ps (fun p => p.BBA) + wsum ps (fun p => p.HA))
             / wsum ps (fun p => p.IP) else 0)) ∧
    (computeRosterTotalsFromSlots counterTestSlots 1).AVG = 1 / 1000 ∧
    (computeRosterTotalsFromSlots counterTestSlots 1).AVG ≠ 1 / 2 := by
  refine ⟨⟨?_, ?_, ?_, ?_⟩, by with_unfolding_all decide, by with_unfolding_all decide⟩ <;>
    simp only [computeRosterTotalsFromSlots, wreduce_eq_sum]

-- ── C6 ────────────────────────────────────────────────────────────

/-- C6: the value fed into the z-score for ratio categories equals the
category mean when the relevant denominator is zero or less, equals the
stored raw ratio when the denominator is at or above the stable-enough
threshold, and otherwise blends the numerator/denominator with the fixed
prior denominator (1000 AB for hitter rates, 200 IP for pitcher rates)
weighted toward the mean; in particular a roster whose hitters have AB = 0
gets z = 0 for batting average, with no division by zero. -/
theorem getCategoryValueForZ_stabilized (t : RosterTotals) (mean : ℚ) :
    ((t.AB ≤ 0 → getCategoryValueForZ t ("AVG") mean = mean) ∧
     (t.AB ≥ 3500 → getCategoryValueForZ t ("AVG") mean = t.AVG) ∧
     (0 < t.AB → t.AB < 3500 →
       getCategoryValueForZ t ("AVG") mean = (t.H + mean * 1000) / (t.AB + 1000))) ∧
    ((t.AB + t.BB + t.HBP + t.SF ≤ 0 → getCategoryValueForZ t ("OBP") mean = mean) ∧
     (t.AB + t.BB + t.HBP + t.SF ≥ 3500 → getCategoryValueForZ t ("OBP") mean = t.OBP) ∧
     (0 < t.AB + t.BB + t.HBP + t.SF → t.AB + t.BB + t.HBP + t.SF < 3500 →
       getCategoryValueForZ t ("OBP") mean =
         (t.H + t.BB + t.HBP + mean * 1000) / (t.AB + t.BB + t.HBP + t.SF + 1000))) ∧
    ((t.IP ≤ 0 → getCategoryValueForZ t ("ERA") mean = mean) ∧
     (t.IP ≥ 900 → getCategoryValueForZ t ("ERA") mean = t.ERA) ∧
     (0 < t.IP → t.IP < 900 →
       getCategoryValueForZ t ("ERA") mean = (t.ER + mean * 200 / 9) * 9 / (t.IP + 200))) ∧
    ((t.IP ≤ 0 → getCategoryValueForZ t ("WHIP") mean = mean) ∧
     (t.IP ≥ 900 → getCategoryValueForZ t ("WHIP") mean = t.WHIP) ∧
     (0 < t.IP → t.IP < 900 →
       getCategoryValueForZ t ("WHIP") mean = (t.BBA + t.HA + mean * 200) / (t.IP + 200))) ∧
    (∀ std : ℚ,
      computeZScore
        (getCategoryValueForZ (computeRosterTotalsFromSlots zeroABSlots (1/5)) "AVG" mean)
        mean std true = 0) := by
  have hAB0 : (computeRosterTotalsFromSlots zeroABSlots (1/5)).AB = 0 := by
    with_unfolding_all decide
  have hAVG : ∀ u : RosterTotals, getCategoryValueForZ u ("AVG") mean =
      if u.AB ≤ 0 then mean
      else if u.AB ≥ 3500 then u.AVG
      else (u.H + mean * 1000) / (u.AB + 1000) := fun u => rfl
  have hOBP : ∀ u : RosterTotals, getCategoryValueForZ u ("OBP") mean =
      if u.AB + u.BB + u.HBP + u.SF ≤ 0 then mean
      else if u.AB + u.BB + u.HBP + u.SF ≥ 3500 then u.OBP
      else (u.H + u.BB + u.HBP + mean * 1000) / (u.AB + u.BB + u.HBP + u.SF + 1000) :=
    fun u => rfl
  have hERA : ∀ u : RosterTotals, getCategoryValueForZ u ("ERA") mean =
      if u.IP ≤ 0 then mean
      else if u.IP ≥ 900 then u.ERA
      else (u.ER + mean * 200 / 9) * 9 / (u.IP + 200) := fun u => rfl
  have hWHIP : ∀ u : RosterTotals, getCategoryValueForZ u ("WHIP") mean =
      if u.IP ≤ 0 then mean
      else if u.IP ≥ 900 then u.WHIP
      else (u.BBA + u.HA + mean * 200) / (u.IP + 200) := fun u => rfl
  refine ⟨⟨?_, ?_, ?_⟩, ⟨?_, ?_, ?_⟩, ⟨?_, ?_, ?_⟩, ⟨?_, ?_, ?_⟩, ?_⟩
  · intro h; rw [hAVG, if_pos h]
  · intro h; rw [hAVG, if_neg (by linarith), if_pos (by linarith)]
  · intro h1 h2; rw [hAVG, if_neg (by linarith), if_neg (by linarith)]
  · intro h; rw [hOBP, if_pos h]
  · intro h; rw [hOBP, if_neg (by linarith), if_pos (by linarith)]
  · intro h1 h2; rw [hOBP, if_neg (by linarith), if_neg (by linarith)]
  · intro h; rw [hERA, if_pos h]
  · intro h; rw [hERA, if_neg (by linarith), if_pos (by linarith)]
  · intro h1 h2; rw [hERA, if_neg (by linarith), if_neg (by linarith)]
  · intro h; rw [hWHIP, if_pos h]
  · intro h; rw [hWHIP, if_neg (by linarith), if_pos (by linarith)]
  · intro h1 h2; rw [hWHIP, if_neg (by linarith), if_neg (by linarith)]
  · intro std
    rw [hAVG, hAB0, if_pos (le_refl 0)]
    simp only [computeZScore, sub_self, zero_div]
    split <;> simp

/-- Witness for `getCategoryValueForZ_stabilized` at a concrete totals value
with small positive denominators (the blending branch). -/
theorem getCategoryValueForZ_stabilized_witness :
    ((0 : ℚ) < 100 ∧ (100 : ℚ) < 3500) ∧
    getCategoryValueForZ (computeRosterTotals [
      { playerId := "w", name := "W", team := "T", positions := ["OF"],
        hitterOrPitcher := Role.hitter, AB := some 100, H := some 30 }]) "AVG" (1/4)
      = (30 + (1/4) * 1000) / (100 + 1000) := by
  refine ⟨⟨by norm_num, by norm_num⟩, ?_⟩
  have h := ((getCategoryValueForZ_stabilized (computeRosterTotals [
      { playerId := "w", name := "W", team := "T", positions := ["OF"],
        hitterOrPitcher := Role.hitter, AB := some 100, H := some 30 }]) (1/4)).1).2.2
  have hab : (computeRosterTotals [
      { playerId := "w", name := "W", team := "T", positions := ["OF"],
        hitterOrPitcher := Role.hitter, AB := some 100, H := some 30 }]).AB = 100 := by
    with_unfolding_all decide
  have hh : (computeRosterTotals [
      { playerId := "w", name := "W", team := "T", positions := ["OF"],
        hitterOrPitcher := Role.hitter, AB := some 100, H := some 30 }]).H = 30 := by
    with_unfolding_all decide
  rw [hab, hh] at h
  exact h (by norm_num) (by norm_num)

-- ── Roster Assigner (src/lib/roster.ts) ───────────────────────────

/-- Stable sort by a JavaScript-style numeric comparator: an element `a` is
placed before `b` exactly when `cmp a b ≤ 0`, ties keeping input order —
the behaviour of `Array.prototype.sort` for a consistent comparator. -/
def sortByCmp {α : Type} (cmp : α → α → ℚ) (l : List α) : List α :=
  List.insertionSort (fun a b => cmp a b ≤ 0) l

/-- Pair each element with its index (the `map((x, idx) => ...)` pattern). -/
def withIdx {α : Type} : List α → Nat → List (α × Nat)
  | [], _ => []
  | x :: xs, n => (x, n) :: withIdx xs (n + 1)

/-- Shallow embedding of `expandRosterSlots` from `src/lib/roster.ts`. -/
def expandRosterSlots (config : RosterConfig) : List RosterSlot :=
  (withIdx config.slots 0).map
    (fun si =>
      { id := si.1.label ++ "_" ++ toString (si.2 + 1), label := si.1.label,
        eligiblePositions := si.1.eligiblePositions, player := none })

/-- Shallow embedding of `isBenchSlot` from `src/lib/roster.ts`. -/
def isBenchSlot (slot : RosterSlot) : Bool :=
  (slot.label.toUpper).startsWith ("BN")

/-- Shallow embedding of `isUtilSlot` from `src/lib/roster.ts`. -/
def isUtilSlot (slot : RosterSlot) : Bool :=
  slot.label.toUpper == "UTIL"

/-- Shallow embedding of `isPitcherFlex` from `src/lib/roster.ts`. -/
def isPitcherFlex (slot : RosterSlot) : Bool :=
  slot.label.toUpper == "P"

/-- Shallow embedding of `eligibleForSlot` from `src/lib/roster.ts`:
UTIL slots accept any hitter, P slots any pitcher, and all other slots use
case-insensitive position-set intersection. -/
def eligibleForSlot (player : Player) (slot : RosterSlot) : Bool :=
  let playerPositions := player.positions.map (fun p => p.toUpper)
  let slotPositions := slot.eligiblePositions.map (fun p => p.toUpper)
  if isUtilSlot slot then player.hitterOrPitcher == Role.hitter
  else if isPitcherFlex slot then player.hitterOrPitcher == Role.pitcher
  else playerPositions.any (fun p => slotPositions.contains p)

/-- Shallow embedding of `slotPriority` from `src/lib/roster.ts`
(lower is better: bench 3, UTIL or pitcher-flex 2, everything else 1). -/
def slotPriority (slot : RosterSlot) : ℚ :=
  if isBenchSlot slot then 3
  else if isUtilSlot slot || isPitcherFlex slot then 2
  else 1

/-- The player sort comparator of `assignPlayersToSlots`:
overall rank (missing = 999999) then ADP (missing = 999999). -/
def playerCmp (a b : Player) : ℚ :=
  let ar := a.overallRank.getD 999999
  let br := b.overallRank.getD 999999
  if ar ≠ br then ar - br
  else a.ADP.getD 999999 - b.ADP.getD 999999

/-- The slot-choice comparator of `assignPlayersToSlots`: slot priority
difference, then eligible-position-count difference. -/
def slotChoiceCmp (a b : RosterSlot × Nat) : ℚ :=
  let pa := slotPriority a.1 - slotPriority b.1
  if pa ≠ 0 then pa
  else ((a.1.eligiblePositions.length : ℚ) - (b.1.eligiblePositions.length : ℚ))

/-- The slot picked for one player by the body of `assignPlayersToSlots`:
filter the indexed slot list down to empty, eligible slots, sort by the
slot-choice comparator, and take the first. -/
def chooseSlotIdx (player : Player) (slots : List RosterSlot) :
    Option (RosterSlot × Nat) :=
  (sortByCmp slotChoiceCmp
    ((withIdx slots 0).filter
      (fun si => si.1.player.isNone && eligibleForSlot player si.1))).head?

/-- One iteration of the player loop in `assignPlayersToSlots`: assign the
player to the chosen slot (if any), leaving the slot list unchanged when no
eligible empty slot exists. -/
def assignStep (slots : List RosterSlot) (player : Player) : List RosterSlot :=
  match chooseSlotIdx player slots with
  | none => slots
  | some target => slots.set target.2 { target.1 with player := some player }

/-- Shallow embedding of `assignPlayersToSlots` from `src/lib/roster.ts`. -/
def assignPlayersToSlots (draftedPlayers : List Player)
    (emptySlots : List RosterSlot) : List RosterSlot :=
  let slots := emptySlots.map (fun s => { s with player := none })
  let players := sortByCmp playerCmp draftedPlayers
  players.foldl assignStep slots

/-- Shallow embedding of `getOpenSlots` from `src/lib/roster.ts`. -/
def getOpenSlots (slots : List RosterSlot) : List RosterSlot :=
  slots.filter (fun s => s.player.isNone)

-- ── Generic facts about comparator-based stable sorting ───────────

/-- Leftmost minimum of a list under a comparator: the head keeps its place
unless a strictly smaller element appears later. -/
def leftMinCmp {α : Type} (cmp : α → α → ℚ) : List α → Option α
  | [] => none
  | x :: xs =>
    match leftMinCmp cmp xs with
    | none => some x
    | some m => if cmp x m ≤ 0 then some x else some m

theorem head?_orderedInsert {α : Type} (le : α → α → Prop) [DecidableRel le]
    (a : α) (l : List α) :
    (List.orderedInsert le a l).head? =
      some (match l.head? with
            | none => a
            | some b => if le a b then a else b) := by
  cases l with
  | nil => rfl
  | cons b t =>
    by_cases h : le a b
    · simp [List.orderedInsert, h]
    · simp [List.orderedInsert, h]

theorem head?_sortByCmp {α : Type} (cmp : α → α → ℚ) (l : List α) :
    (sortByCmp cmp l).head? = leftMinCmp cmp l := by
  induction l with
  | nil => rfl
  | cons x xs ih =>
    show (List.orderedInsert _ x (sortByCmp cmp xs)).head? = _
    rw [head?_orderedInsert]
    rw [show (sortByCmp cmp xs).head? = leftMinCmp cmp xs from ih]
    cases hm : leftMinCmp cmp xs with
    | none => simp [leftMinCmp, hm]
    | some m =>
      simp only [leftMinCmp, hm]
      by_cases h : cmp x m ≤ 0 <;> simp [h]

theorem orderedInsert_congr {α : Type} (r s : α → α → Prop)
    [DecidableRel r] [DecidableRel s] (hiff : ∀ a b, r a b ↔ s a b) (a : α) :
    ∀ l : List α, List.orderedInsert r a l = List.orderedInsert s a l := by
  intro l
  induction l with
  | nil => rfl
  | cons b t ih =>
    by_cases h : r a b
    · rw [List.orderedInsert, List.orderedInsert, if_pos h, if_pos ((hiff a b).mp h)]
    · rw [List.orderedInsert, List.orderedInsert, if_neg h,
        if_neg (fun hs => h ((hiff a b).mpr hs)), ih]

theorem insertionSort_congr {α : Type} (r s : α → α → Prop)
    [DecidableRel r] [DecidableRel s] (hiff : ∀ a b, r a b ↔ s a b) :
    ∀ l : List α, List.insertionSort r l = List.insertionSort s l := by
  intro l
  induction l with
  | nil => rfl
  | cons b t ih =>
    show List.orderedInsert r b (List.insertionSort r t)
       = List.orderedInsert s b (List.insertionSort s t)
    rw [ih, orderedInsert_congr r s hiff]

theorem mem_of_head?_eq {α : Type} {l : List α} {x : α} (h : l.head? = some x) :
    x ∈ l := by
  cases l with
  | nil => simp at h
  | cons a t => simp at h; simp [h]

theorem withIdx_get? {α : Type} :
    ∀ (l : List α) (n : Nat) (x : α) (i : Nat),
      (x, i) ∈ withIdx l n → n ≤ i ∧ l.get? (i - n) = some x := by
  intro l
  induction l with
  | nil => intro n x i h; simp [withIdx] at h
  | cons y ys ih =>
    intro n x i h
    simp only [withIdx, List.mem_cons] at h
    rcases h with h | h
    · have hx : x = y := congrArg Prod.fst h
      have hi : i = n := congrArg Prod.snd h
      subst hx; subst hi
      simp
    · obtain ⟨hle, hget⟩ := ih (n + 1) x i h
      refine ⟨by omega, ?_⟩
      have : i - n = (i - (n + 1)) + 1 := by omega
      rw [this]
      simpa using hget

-- ── Specification-side formulation of the Roster Assigner (C2) ────

/-- The spec's rank-quality order on players: ascending overall rank
(missing treated as the 999999 sentinel), ties broken by ascending ADP
(same sentinel). -/
@[reducible] def specRankLe (a b : Player) : Prop :=
  a.overallRank.getD 999999 < b.overallRank.getD 999999 ∨
  (a.overallRank.getD 999999 = b.overallRank.getD 999999 ∧
   a.ADP.getD 999999 ≤ b.ADP.getD 999999)

/-- Strict order on candidate slots used by the spec's slot choice:
lower slot-priority class first, then fewer eligible positions. -/
@[reducible] def slotKeyLt (a b : RosterSlot × Nat) : Prop :=
  slotPriority a.1 < slotPriority b.1 ∨
  (slotPriority a.1 = slotPriority b.1 ∧
   a.1.eligiblePositions.length < b.1.eligiblePositions.length)

/-- The spec's slot choice, read directly from §4.2: among currently-empty
slots for which the player is eligible, pick the one with the least
(priority class, eligible-position count) key, earliest slot on full ties.
A later candidate replaces an earlier one only when strictly smaller. -/
def chooseSpecAux (player : Player) :
    List (RosterSlot × Nat) → Option (RosterSlot × Nat)
  | [] => none
  | si :: rest =>
    if si.1.player = none ∧ eligibleForSlot player si.1 = true then
      match chooseSpecAux player rest with
      | none => some si
      | some best => if slotKeyLt best si then some best else some si
    else chooseSpecAux player rest

/-- Specification-side assigner: sort players by the spec's rank key and
greedily give each its best empty eligible slot. -/
def assignSpec (draftedPlayers : List Player)
    (emptySlots : List RosterSlot) : List RosterSlot :=
  let slots := emptySlots.map (fun s => { s with player := none })
  let players := List.insertionSort specRankLe draftedPlayers
  players.foldl
    (fun st p =>
      match chooseSpecAux p (withIdx st 0) with
      | none => st
      | some target => st.set target.2 { target.1 with player := some p })
    slots

theorem playerCmp_le_iff (a b : Player) : (playerCmp a b ≤ 0) ↔ specRankLe a b := by
  unfold playerCmp specRankLe
  by_cases h : a.overallRank.getD 999999 = b.overallRank.getD 999999
  · rw [if_neg (by simp [h])]
    constructor
    · intro hle
      exact Or.inr ⟨h, by linarith⟩
    · rintro (hlt | ⟨-, hle⟩)
      · exact absurd h (ne_of_lt hlt)
      · linarith
  · rw [if_pos h]
    constructor
    · intro hle
      exact Or.inl (lt_of_le_of_ne (by linarith) h)
    · rintro (hlt | ⟨heq, -⟩)
      · linarith
      · exact absurd heq h


theorem slotChoiceCmp_le_iff (x m : RosterSlot × Nat) :
    (slotChoiceCmp x m ≤ 0) ↔ ¬ slotKeyLt m x := by
  unfold slotChoiceCmp slotKeyLt
  have hcast : ((x.1.eligiblePositions.length : ℚ)
      - (m.1.eligiblePositions.length : ℚ) ≤ 0)
      ↔ x.1.eligiblePositions.length ≤ m.1.eligiblePositions.length := by
    constructor <;> intro hh
    · exact_mod_cast (by linarith :
        ((x.1.eligiblePositions.length : ℚ)) ≤ (m.1.eligiblePositions.length : ℚ))
    · have : ((x.1.eligiblePositions.length : ℚ)) ≤ (m.1.eligiblePositions.length : ℚ) := by
        exact_mod_cast hh
      linarith
  by_cases h : slotPriority x.1 = slotPriority m.1
  · rw [if_neg (by simp [h]), hcast]
    constructor
    · intro hle
      rintro (hp | ⟨-, hl⟩)
      · exact absurd hp (by rw [h]; exact lt_irrefl _)
      · omega
    · intro hn
      by_contra hlt
      exact hn (Or.inr ⟨h.symm, by omega⟩)
  · rw [if_pos (sub_ne_zero.mpr h)]
    constructor
    · intro hle
      rintro (hp | ⟨heq, -⟩)
      · linarith
      · exact h heq.symm
    · intro hn
      push_neg at hn
      linarith [hn.1]

theorem leftMin_filter_eq_chooseSpec (p : Player) :
    ∀ l : List (RosterSlot × Nat),
      leftMinCmp slotChoiceCmp
        (l.filter (fun si => si.1.player.isNone && eligibleForSlot p si.1))
        = chooseSpecAux p l := by
  intro l
  induction l with
  | nil => rfl
  | cons x rest ih =>
    by_cases hx : x.1.player = none ∧ eligibleForSlot p x.1 = true
    · have hb : (x.1.player.isNone && eligibleForSlot p x.1) = true := by
        simp [Option.isNone_iff_eq_none, hx.1, hx.2]
      simp only [List.filter_cons]
      rw [if_pos hb]
      simp only [chooseSpecAux]
      rw [if_pos hx]
      simp only [leftMinCmp]
      rw [ih]
      cases hc : chooseSpecAux p rest with
      | none => rfl
      | some m =>
        show (if slotChoiceCmp x m ≤ 0 then some x else some m)
           = (if slotKeyLt m x then some m else some x)
        by_cases hcm : slotChoiceCmp x m ≤ 0
        · rw [if_pos hcm, if_neg ((slotChoiceCmp_le_iff x m).mp hcm)]
        · rw [if_neg hcm,
            if_pos (not_not.mp (fun hnl => hcm ((slotChoiceCmp_le_iff x m).mpr hnl)))]
    · have hb : ¬ ((x.1.player.isNone && eligibleForSlot p x.1) = true) := by
        simp only [Bool.and_eq_true, Option.isNone_iff_eq_none]
        exact fun hc => hx ⟨hc.1, hc.2⟩
      simp only [List.filter_cons]
      rw [if_neg hb]
      simp only [chooseSpecAux]
      rw [if_neg hx]
      exact ih

theorem chooseSlotIdx_eq_spec (p : Player) (slots : List RosterSlot) :
    chooseSlotIdx p slots = chooseSpecAux p (withIdx slots 0) := by
  unfold chooseSlotIdx
  rw [head?_sortByCmp]
  exact leftMin_filter_eq_chooseSpec p (withIdx slots 0)

-- ── C2 ────────────────────────────────────────────────────────────

/-- A pitcher whose listed position code is the generic "P". -/
def twoWayPitcher : Player :=
  { playerId := "p1", name := "Generic P", team := "DDD",
    positions := ["P"], hitterOrPitcher := Role.pitcher }

/-- The pitcher-flex slot of the default roster template. -/
def pitcherFlexSlot : RosterSlot :=
  { id := "P_17", label := "P", eligiblePositions := ["SP", "RP"],
    player := none }

/-- C2 counterexample: the assigner places a pitcher whose position set
does not intersect the slot's eligible set ({"P"} vs {"SP","RP"}) into the
pitcher-flex slot, because the code accepts any pitcher for "P"-labelled
slots regardless of the eligible position list; the claim's
intersection-based eligibility says this player fits no slot. -/
theorem assignPlayersToSlots_intersection_counterexample :
    assignPlayersToSlots [twoWayPitcher] [pitcherFlexSlot]
      = [{ pitcherFlexSlot with player := some twoWayPitcher }] ∧
    (twoWayPitcher.positions.all
      (fun q => !((pitcherFlexSlot.eligiblePositions.map
        (fun r => r.toUpper)).contains (q.toUpper)))) = true := by
  constructor
  · with_unfolding_all decide
  · with_unfolding_all decide

/-- C2 (amended): the assigner processes players in ascending order of
overall rank with ADP tie-break (missing values = sentinel 999999), and
gives each player the empty eligible slot with lowest priority class
(position-specific 1, UTIL/pitcher-flex 2, bench 3) and fewest eligible
positions as tie-break — where eligibility is the code's rule: UTIL slots
take any hitter, "P" slots any pitcher, all other slots case-insensitive
position-set intersection. -/
theorem assignPlayersToSlots_eq_spec (ps : List Player) (slots : List RosterSlot) :
    assignPlayersToSlots ps slots = assignSpec ps slots := by
  unfold assignPlayersToSlots assignSpec
  have hsort : sortByCmp playerCmp ps = List.insertionSort specRankLe ps :=
    insertionSort_congr _ _ playerCmp_le_iff ps
  have hstep : assignStep = fun st p =>
      match chooseSpecAux p (withIdx st 0) with
      | none => st
      | some target => st.set target.2 { target.1 with player := some p } := by
    funext st p
    unfold assignStep
    rw [chooseSlotIdx_eq_spec]
  rw [hsort, hstep]

-- ── Structural facts about the assigner (C3, C9) ──────────────────

theorem eligibleForSlot_set_player (q : Player) (s : RosterSlot) (v : Option Player) :
    eligibleForSlot q { s with player := v } = eligibleForSlot q s := rfl

theorem mem_sortByCmp {α : Type} (cmp : α → α → ℚ) (l : List α) (x : α) :
    x ∈ sortByCmp cmp l ↔ x ∈ l := by
  unfold sortByCmp
  exact List.mem_insertionSort _

theorem chooseSlotIdx_sound (p : Player) (slots : List RosterSlot)
    (s : RosterSlot) (i : Nat) (h : chooseSlotIdx p slots = some (s, i)) :
    slots.get? i = some s ∧ s.player = none ∧ eligibleForSlot p s = true := by
  unfold chooseSlotIdx at h
  have hmem : (s, i) ∈ sortByCmp slotChoiceCmp
      ((withIdx slots 0).filter
        (fun si => si.1.player.isNone && eligibleForSlot p si.1)) :=
    mem_of_head?_eq h
  rw [mem_sortByCmp] at hmem
  rw [List.mem_filter] at hmem
  obtain ⟨hin, hpred⟩ := hmem
  have hget := withIdx_get? slots 0 s i hin
  simp only [Nat.sub_zero] at hget
  simp only [Bool.and_eq_true, Option.isNone_iff_eq_none] at hpred
  exact ⟨hget.2, hpred.1, hpred.2⟩

theorem assignStep_length (st : List RosterSlot) (p : Player) :
    (assignStep st p).length = st.length := by
  unfold assignStep
  cases chooseSlotIdx p st with
  | none => rfl
  | some target => simp [List.length_set]

theorem assign_foldl_length :
    ∀ (rem : List Player) (st : List RosterSlot),
      (rem.foldl assignStep st).length = st.length := by
  intro rem
  induction rem with
  | nil => intro st; rfl
  | cons p rest ih =>
    intro st
    show (rest.foldl assignStep (assignStep st p)).length = st.length
    rw [ih, assignStep_length]

/-- The slot identity visible to the outside: everything but the occupant. -/
def slotShape (s : RosterSlot) : String × String × List String :=
  (s.id, s.label, s.eligiblePositions)

theorem assign_foldl_shape :
    ∀ (rem : List Player) (st : List RosterSlot) (i : Nat),
      ((rem.foldl assignStep st).get? i).map slotShape = (st.get? i).map slotShape := by
  intro rem
  induction rem with
  | nil => intro st i; rfl
  | cons p rest ih =>
    intro st i
    show ((rest.foldl assignStep (assignStep st p)).get? i).map slotShape = _
    rw [ih]
    unfold assignStep
    cases hc : chooseSlotIdx p st with
    | none => rfl
    | some target =>
      obtain ⟨s, k⟩ := target
      obtain ⟨hget, -, -⟩ := chooseSlotIdx_sound p st s k hc
      by_cases hik : k = i
      · subst hik
        have hlt : k < st.length := (List.get?_eq_some.mp hget).choose
        rw [List.get?_set_eq_of_lt _ hlt, hget]
        rfl
      · rw [List.get?_set_ne _ _ hik]

theorem assign_foldl_occ (P : Player → Prop) :
    ∀ (rem : List Player) (st : List RosterSlot),
      rem.Nodup →
      (∀ q ∈ rem, P q) →
      (∀ i s q, st.get? i = some s → s.player = some q → q ∉ rem) →
      (∀ i s q, st.get? i = some s → s.player = some q →
        P q ∧ eligibleForSlot q s = true) →
      (∀ i j s t q, st.get? i = some s → st.get? j = some t →
        s.player = some q → t.player = some q → i = j) →
      (∀ i s q, (rem.foldl assignStep st).get? i = some s → s.player = some q →
        P q ∧ eligibleForSlot q s = true) ∧
      (∀ i j s t q, (rem.foldl assignStep st).get? i = some s →
        (rem.foldl assignStep st).get? j = some t →
        s.player = some q → t.player = some q → i = j) := by
  intro rem
  induction rem with
  | nil =>
    intro st _ _ _ hocc hinj
    exact ⟨hocc, hinj⟩
  | cons p rest ih =>
    intro st hnd hP hdisj hocc hinj
    have hndr : rest.Nodup := hnd.of_cons
    have hpnotin : p ∉ rest := (List.nodup_cons.mp hnd).1
    have hPr : ∀ q ∈ rest, P q := fun q hq => hP q (List.mem_cons_of_mem p hq)
    simp only [List.foldl_cons]
    cases hc : chooseSlotIdx p st with
    | none =>
      have hstep : assignStep st p = st := by unfold assignStep; rw [hc]
      rw [hstep]
      exact ih st hndr hPr
        (fun i s q h1 h2 hmem => hdisj i s q h1 h2 (List.mem_cons_of_mem p hmem))
        hocc hinj
    | some target =>
      obtain ⟨c, k⟩ := target
      obtain ⟨hgetc, hempty, helig⟩ := chooseSlotIdx_sound p st c k hc
      have hlt : k < st.length := (List.get?_eq_some.mp hgetc).choose
      have hstep : assignStep st p = st.set k { c with player := some p } := by
        unfold assignStep; rw [hc]
      rw [hstep]
      have hget' : ∀ i, (st.set k { c with player := some p }).get? i =
          if k = i then some { c with player := some p } else st.get? i := by
        intro i
        by_cases hik : k = i
        · subst hik
          rw [List.get?_set_eq_of_lt _ hlt, if_pos rfl]
        · rw [List.get?_set_ne _ _ hik, if_neg hik]
      refine ih _ hndr hPr ?_ ?_ ?_
      · intro i s q h1 h2
        rw [hget'] at h1
        by_cases hik : k = i
        · rw [if_pos hik] at h1
          have hs : s = { c with player := some p } := by injection h1 with h; exact h.symm
          have hq : q = p := by
            rw [hs] at h2; injection h2 with h; exact h.symm
          rw [hq]
          exact hpnotin
        · rw [if_neg hik] at h1
          exact fun hmem => hdisj i s q h1 h2 (List.mem_cons_of_mem p hmem)
      · intro i s q h1 h2
        rw [hget'] at h1
        by_cases hik : k = i
        · rw [if_pos hik] at h1
          have hs : s = { c with player := some p } := by injection h1 with h; exact h.symm
          have hq : q = p := by
            rw [hs] at h2; injection h2 with h; exact h.symm
          rw [hq, hs]
          refine ⟨hP p (List.mem_cons_self p rest), ?_⟩
          rw [eligibleForSlot_set_player]
          exact helig
        · rw [if_neg hik] at h1
          exact hocc i s q h1 h2
      · intro i j s t q h1 h2 hs ht
        rw [hget'] at h1 h2
        by_cases hik : k = i <;> by_cases hjk : k = j
        · rw [← hik, ← hjk]
        · rw [if_pos hik] at h1
          rw [if_neg hjk] at h2
          have hsp : s = { c with player := some p } := by injection h1 with h; exact h.symm
          have hq : q = p := by
            rw [hsp] at hs; injection hs with h; exact h.symm
          subst hq
          exact absurd (List.mem_cons_self q rest) (hdisj j t q h2 ht)
        · rw [if_neg hik] at h1
          rw [if_pos hjk] at h2
          have htp : t = { c with player := some p } := by injection h2 with h; exact h.symm
          have hq : q = p := by
            rw [htp] at ht; injection ht with h; exact h.symm
          subst hq
          exact absurd (List.mem_cons_self q rest) (hdisj i s q h1 hs)
        · rw [if_neg hik] at h1
          rw [if_neg hjk] at h2
          exact hinj i j s t q h1 h2 hs ht

theorem assignPlayersToSlots_def (ps : List Player) (slots : List RosterSlot) :
    assignPlayersToSlots ps slots
      = (sortByCmp playerCmp ps).foldl assignStep
          (slots.map (fun s => { s with player := none })) := rfl

theorem initSlots_unoccupied (slots : List RosterSlot) :
    ∀ i s, (slots.map (fun s => { s with player := none })).get? i = some s →
      s.player = none := by
  intro i s h
  rw [List.get?_map] at h
  cases hg : slots.get? i with
  | none => rw [hg] at h; simp at h
  | some t =>
    rw [hg] at h
    simp only [Option.map_some'] at h
    injection h with h
    rw [← h]

-- ── C3 ────────────────────────────────────────────────────────────

/-- C3: for a duplicate-free drafted-player list, the slot list returned by
the Roster Assigner never assigns one player to two slots, every occupant
is eligible for its slot and comes from the input list, the slot structure
(id, label, eligible positions) of the template is returned intact — so
slots with no eligible player simply come back unfilled — and the function
is total: a player fitting no open slot is left out, never an error. -/
theorem assignPlayersToSlots_sound (ps : List Player) (slots : List RosterSlot)
    (hnd : ps.Nodup) :
    (∀ i s q, (assignPlayersToSlots ps slots).get? i = some s → s.player = some q →
      q ∈ ps ∧ eligibleForSlot q s = true) ∧
    (∀ i j s t q, (assignPlayersToSlots ps slots).get? i = some s →
      (assignPlayersToSlots ps slots).get? j = some t →
      s.player = some q → t.player = some q → i = j) ∧
    (∀ i, ((assignPlayersToSlots ps slots).get? i).map slotShape
        = (slots.get? i).map slotShape) ∧
    (assignPlayersToSlots ps slots).length = slots.length := by
  have hperm : List.Perm (sortByCmp playerCmp ps) ps := by
    unfold sortByCmp
    exact List.perm_insertionSort _ ps
  have hnds : (sortByCmp playerCmp ps).Nodup := hperm.symm.nodup hnd
  have hinit := initSlots_unoccupied slots
  have hocc := assign_foldl_occ (fun q => q ∈ ps) (sortByCmp playerCmp ps)
    (slots.map (fun s => { s with player := none })) hnds
    (fun q hq => (mem_sortByCmp playerCmp ps q).mp hq)
    (fun i s q h1 h2 => absurd h2 (by rw [hinit i s h1]; simp))
    (fun i s q h1 h2 => absurd h2 (by rw [hinit i s h1]; simp))
    (fun i j s t q h1 h2 hs ht => absurd hs (by rw [hinit i s h1]; simp))
  rw [assignPlayersToSlots_def]
  refine ⟨hocc.1, hocc.2, ?_, ?_⟩
  · intro i
    rw [assign_foldl_shape]
    rw [List.get?_map]
    cases slots.get? i <;> rfl
  · rw [assign_foldl_length, List.length_map]

/-- C3 witness: a concrete duplicate-free two-player roster satisfies the
assigner guarantees. -/
theorem assignPlayersToSlots_sound_witness :
    ([hitterOneForOne, hitterZeroFor999] : List Player).Nodup ∧
    (assignPlayersToSlots [hitterOneForOne, hitterZeroFor999]
      [{ id := "OF1_6", label := "OF1", eligiblePositions := ["OF"], player := none },
       { id := "OF2_7", label := "OF2", eligiblePositions := ["OF"], player := none }]).length
      = 2 :=
  ⟨by with_unfolding_all decide,
   (assignPlayersToSlots_sound [hitterOneForOne, hitterZeroFor999]
      [{ id := "OF1_6", label := "OF1", eligiblePositions := ["OF"], player := none },
       { id := "OF2_7", label := "OF2", eligiblePositions := ["OF"], player := none }]
      (by with_unfolding_all decide)).2.2.2⟩

-- ── C9 ────────────────────────────────────────────────────────────

/-- The rank-quality sort key: (overall rank, ADP) with missing values
replaced by the 999999 sentinel. -/
def sortKey (p : Player) : ℚ × ℚ :=
  (p.overallRank.getD 999999, p.ADP.getD 999999)

/-- A catcher with overall rank 5 and no ADP. -/
def catcherA : Player :=
  { playerId := "cA", name := "Catcher A", team := "EEE",
    positions := ["C"], hitterOrPitcher := Role.hitter,
    overallRank := some 5 }

/-- A second catcher with the same overall rank 5 and no ADP, tied with
`catcherA` on the (rank, ADP) sort key. -/
def catcherB : Player :=
  { playerId := "cB", name := "Catcher B", team := "FFF",
    positions := ["C"], hitterOrPitcher := Role.hitter,
    overallRank := some 5 }

/-- A roster template consisting of a single catcher slot. -/
def cSlotOnly : RosterSlot :=
  { id := "C_1", label := "C", eligiblePositions := ["C"], player := none }

/-- C9 counterexample: two unranked catchers share the sort key
(999999, 999999); the stable sort keeps their input order, so the two
orderings of the same player set fill the single catcher slot with
different players. -/
theorem assignPlayersToSlots_order_counterexample :
    assignPlayersToSlots [catcherA, catcherB] [cSlotOnly]
      ≠ assignPlayersToSlots [catcherB, catcherA] [cSlotOnly] := by
  with_unfolding_all decide

theorem playerCmp_neg (a b : Player) : playerCmp b a = - playerCmp a b := by
  unfold playerCmp
  by_cases h : a.overallRank.getD 999999 = b.overallRank.getD 999999
  · rw [if_neg (by simp [h]), if_neg (by simp [h])]
    ring
  · rw [if_pos (Ne.symm h), if_pos h]
    ring

theorem sortByCmp_sorted_playerCmp (l : List Player) :
    (sortByCmp playerCmp l).Pairwise (fun a b => playerCmp a b ≤ 0) := by
  unfold sortByCmp
  haveI : IsTotal Player (fun a b => playerCmp a b ≤ 0) := ⟨by
    intro a b
    by_cases h : playerCmp a b ≤ 0
    · exact Or.inl h
    · right
      rw [playerCmp_neg a b]
      linarith⟩
  haveI : IsTrans Player (fun a b => playerCmp a b ≤ 0) := ⟨by
    intro a b c hab hbc
    rw [playerCmp_le_iff] at hab hbc ⊢
    rcases hab with h1 | ⟨h1, h1'⟩ <;> rcases hbc with h2 | ⟨h2, h2'⟩
    · exact Or.inl (lt_trans h1 h2)
    · exact Or.inl (h2 ▸ h1)
    · exact Or.inl (by rw [h1]; exact h2)
    · exact Or.inr ⟨h1.trans h2, le_trans h1' h2'⟩⟩
  exact List.sorted_insertionSort _ l

theorem eq_of_perm_of_pairwise_antisym {α : Type} (le : α → α → Prop) :
    ∀ (l₁ l₂ : List α), l₁.Pairwise le → l₂.Pairwise le → List.Perm l₁ l₂ →
      (∀ a ∈ l₁, ∀ b ∈ l₁, le a b → le b a → a = b) → l₁ = l₂ := by
  intro l₁
  induction l₁ with
  | nil =>
    intro l₂ _ _ hp _
    exact (hp.symm.eq_nil).symm
  | cons x xs ih =>
    intro l₂ h₁ h₂ hp hanti
    cases l₂ with
    | nil => exact absurd hp.eq_nil (by simp)
    | cons y ys =>
      have hxy : x = y := by
        have hx2 : x ∈ y :: ys := hp.mem_iff.mp (List.mem_cons_self x xs)
        have hy1 : y ∈ x :: xs := hp.mem_iff.mpr (List.mem_cons_self y ys)
        rcases List.mem_cons.mp hx2 with h | hxys
        · exact h
        rcases List.mem_cons.mp hy1 with h | hyxs
        · exact h.symm
        have hle1 : le x y := (List.pairwise_cons.mp h₁).1 y hyxs
        have hle2 : le y x := (List.pairwise_cons.mp h₂).1 x hxys
        exact hanti x (List.mem_cons_self x xs) y (List.mem_cons_of_mem x hyxs) hle1 hle2
      subst hxy
      have hp' : List.Perm xs ys := hp.cons_inv
      have := ih ys (List.pairwise_cons.mp h₁).2 (List.pairwise_cons.mp h₂).2 hp'
        (fun a ha b hb => hanti a (List.mem_cons_of_mem x ha) b (List.mem_cons_of_mem x hb))
      rw [this]

theorem sortByCmp_eq_of_perm (l₁ l₂ : List Player)
    (hperm : List.Perm l₁ l₂)
    (hkey : ∀ a ∈ l₁, ∀ b ∈ l₁, sortKey a = sortKey b → a = b) :
    sortByCmp playerCmp l₁ = sortByCmp playerCmp l₂ := by
  have hperm1 : List.Perm (sortByCmp playerCmp l₁) l₁ := by
    unfold sortByCmp; exact List.perm_insertionSort _ l₁
  have hperm2 : List.Perm (sortByCmp playerCmp l₂) l₂ := by
    unfold sortByCmp; exact List.perm_insertionSort _ l₂
  apply eq_of_perm_of_pairwise_antisym (fun a b => playerCmp a b ≤ 0)
  · exact sortByCmp_sorted_playerCmp l₁
  · exact sortByCmp_sorted_playerCmp l₂
  · exact (hperm1.trans hperm).trans hperm2.symm
  · intro a ha b hb hab hba
    have ha' : a ∈ l₁ := (mem_sortByCmp _ _ _).mp ha
    have hb' : b ∈ l₁ := (mem_sortByCmp _ _ _).mp hb
    rw [playerCmp_le_iff] at hab hba
    apply hkey a ha' b hb'
    have hrank : a.overallRank.getD 999999 = b.overallRank.getD 999999 := by
      rcases hab with h1 | ⟨h1, -⟩ <;> rcases hba with h2 | ⟨h2, -⟩
      · exact absurd (lt_trans h1 h2) (lt_irrefl _)
      · exact h2.symm
      · exact h1
      · exact h1
    have hadp : a.ADP.getD 999999 = b.ADP.getD 999999 := by
      rcases hab with h1 | ⟨-, h1'⟩
      · exact absurd h1 (by rw [hrank]; exact lt_irrefl _)
      rcases hba with h2 | ⟨-, h2'⟩
      · exact absurd h2 (by rw [hrank]; exact lt_irrefl _)
      exact le_antisymm h1' h2'
    unfold sortKey
    rw [hrank, hadp]

/-- C9 (amended): the assigner is order-independent for every two orderings
of the same player set whose (rank, ADP) sort keys are pairwise distinct —
with tied sort keys the stable sort preserves input order, so full order
independence fails (see the counterexample) — and re-running it on the
same list reproduces the same assignment. -/
theorem assignPlayersToSlots_order_independent :
    (∀ (l₁ l₂ : List Player) (slots : List RosterSlot),
      List.Perm l₁ l₂ →
      (∀ a ∈ l₁, ∀ b ∈ l₁, sortKey a = sortKey b → a = b) →
      assignPlayersToSlots l₁ slots = assignPlayersToSlots l₂ slots) ∧
    (∀ (l : List Player) (slots : List RosterSlot),
      assignPlayersToSlots l slots = assignPlayersToSlots l slots) := by
  refine ⟨?_, fun _ _ => rfl⟩
  intro l₁ l₂ slots hperm hkey
  rw [assignPlayersToSlots_def, assignPlayersToSlots_def,
    sortByCmp_eq_of_perm l₁ l₂ hperm hkey]

/-- C9 witness: two catchers with distinct overall ranks are assigned
identically regardless of input order. -/
theorem assignPlayersToSlots_order_independent_witness :
    List.Perm
      [{ catcherA with overallRank := some 1, ADP := some 3 }, { catcherB with overallRank := some 2, ADP := some 4 }]
      [{ catcherB with overallRank := some 2, ADP := some 4 }, { catcherA with overallRank := some 1, ADP := some 3 }] ∧
    assignPlayersToSlots
      [{ catcherA with overallRank := some 1, ADP := some 3 }, { catcherB with overallRank := some 2, ADP := some 4 }]
      [cSlotOnly]
      = assignPlayersToSlots
      [{ catcherB with overallRank := some 2, ADP := some 4 }, { catcherA with overallRank := some 1, ADP := some 3 }]
      [cSlotOnly] :=
  ⟨by with_unfolding_all decide,
   assignPlayersToSlots_order_independent.1 _ _ _
     (by with_unfolding_all decide)
     (by with_unfolding_all decide)⟩

-- ── Draft state (src/lib/draft.ts) ────────────────────────────────

/-- Shallow embedding of `DraftPick` from `src/lib/types.ts`; the
`Date.now()` timestamp becomes an explicit argument. -/
structure DraftPick where
  playerId : String
  round : Option ℚ := none
  overallPick : Option ℚ := none
  timestamp : ℚ
deriving DecidableEq

/-- Shallow embedding of `DraftState` from `src/lib/types.ts`. -/
structure DraftState where
  myPicks : List DraftPick
  otherPicks : List String
  riskTolerance : ℚ
deriving DecidableEq

/-- Shallow embedding of `createEmptyDraftState` from `src/lib/draft.ts`. -/
def createEmptyDraftState : DraftState :=
  { myPicks := [], otherPicks := [], riskTolerance := 0.5 }

/-- Shallow embedding of `getMyPlayerIds` from `src/lib/draft.ts`. -/
def getMyPlayerIds (state : DraftState) : List String :=
  state.myPicks.map (fun p => p.playerId)

/-- Shallow embedding of `getDraftedIds` from `src/lib/draft.ts`: the JS
`Set` (used only for membership) becomes the list of ids in insertion
order — my picks first, then other picks. -/
def getDraftedIds (state : DraftState) : List String :=
  state.myPicks.map (fun p => p.playerId) ++ state.otherPicks

/-- Shallow embedding of `draftForMe` from `src/lib/draft.ts` (`now` is the
`Date.now()` value). -/
def draftForMe (state : DraftState) (playerId : String) (now : ℚ) : DraftState :=
  if (getDraftedIds state).contains playerId then state
  else
    { state with
        myPicks := state.myPicks ++ [{ playerId := playerId, timestamp := now }] }

/-- Shallow embedding of `draftForOther` from `src/lib/draft.ts`. -/
def draftForOther (state : DraftState) (playerId : String) : DraftState :=
  if (getDraftedIds state).contains playerId then state
  else { state with otherPicks := state.otherPicks ++ [playerId] }

/-- Shallow embedding of `removeLastMyPick` from `src/lib/draft.ts`
(`slice(0, -1)` is `dropLast`). -/
def removeLastMyPick (state : DraftState) : DraftState :=
  if state.myPicks.length = 0 then state
  else { state with myPicks := state.myPicks.dropLast }

/-- Shallow embedding of `undraftOther` from `src/lib/draft.ts`. -/
def undraftOther (state : DraftState) (playerId : String) : DraftState :=
  { state with otherPicks := state.otherPicks.filter (fun id => id != playerId) }

/-- Draft states reachable from the empty state through the four
mutation helpers of `src/lib/draft.ts`. -/
inductive ReachableDraftState : DraftState → Prop where
  | empty : ReachableDraftState createEmptyDraftState
  | me (s : DraftState) (pid : String) (now : ℚ) :
      ReachableDraftState s → ReachableDraftState (draftForMe s pid now)
  | other (s : DraftState) (pid : String) :
      ReachableDraftState s → ReachableDraftState (draftForOther s pid)
  | undo (s : DraftState) :
      ReachableDraftState s → ReachableDraftState (removeLastMyPick s)
  | undraft (s : DraftState) (pid : String) :
      ReachableDraftState s → ReachableDraftState (undraftOther s pid)

theorem contains_false_not_mem {l : List String} {x : String}
    (h : l.contains x = false) : x ∉ l := by
  simpa using h

/-- The ids drafted in a state, my picks then other picks. -/
def allDraftedIds (s : DraftState) : List String := getDraftedIds s

-- ── C10 ───────────────────────────────────────────────────────────

/-- C10: drafting an already-drafted playerId (for me or for another
team) returns the state unchanged, and every draft state reachable from
the empty state via draftForMe, draftForOther, removeLastMyPick and
undraftOther has no playerId occurring twice across myPicks and
otherPicks. -/
theorem draftState_no_duplicates :
    (∀ (s : DraftState) (pid : String) (now : ℚ),
      (getDraftedIds s).contains pid = true →
      draftForMe s pid now = s ∧ draftForOther s pid = s) ∧
    (∀ s : DraftState, ReachableDraftState s → (allDraftedIds s).Nodup) := by
  constructor
  · intro s pid now h
    constructor
    · unfold draftForMe
      rw [if_pos h]
    · unfold draftForOther
      rw [if_pos h]
  · intro s hreach
    induction hreach with
    | empty => simp [allDraftedIds, getDraftedIds, createEmptyDraftState]
    | me s pid now _ ih =>
      unfold draftForMe
      cases hc : (getDraftedIds s).contains pid with
      | true => rw [if_pos rfl]; exact ih
      | false =>
        rw [if_neg (by simp)]
        have hnm : pid ∉ allDraftedIds s := contains_false_not_mem hc
        simp only [allDraftedIds, getDraftedIds, List.map_append] at ih ⊢
        simp only [List.map_cons, List.map_nil]
        rw [List.append_assoc]
        show (List.map (fun p => p.playerId) s.myPicks ++ ([pid] ++ s.otherPicks)).Nodup
        rw [show [pid] ++ s.otherPicks = pid :: s.otherPicks from rfl]
        rw [List.nodup_middle]
        rw [List.nodup_cons]
        refine ⟨?_, ih⟩
        simpa [allDraftedIds, getDraftedIds] using hnm
    | other s pid _ ih =>
      unfold draftForOther
      cases hc : (getDraftedIds s).contains pid with
      | true => rw [if_pos rfl]; exact ih
      | false =>
        rw [if_neg (by simp)]
        have hnm : pid ∉ allDraftedIds s := contains_false_not_mem hc
        simp only [allDraftedIds, getDraftedIds] at ih ⊢
        rw [show s.myPicks.map (fun p => p.playerId) ++ (s.otherPicks ++ [pid])
            = (s.myPicks.map (fun p => p.playerId) ++ s.otherPicks) ++ pid :: [] from by
          rw [List.append_assoc]]
        rw [List.nodup_middle]
        rw [List.nodup_cons]
        refine ⟨?_, by simpa using ih⟩
        simpa [allDraftedIds, getDraftedIds] using hnm
    | undo s _ ih =>
      unfold removeLastMyPick
      by_cases hz : s.myPicks.length = 0
      · rw [if_pos hz]; exact ih
      · rw [if_neg hz]
        simp only [allDraftedIds, getDraftedIds] at ih ⊢
        refine List.Nodup.sublist ?_ ih
        exact (List.Sublist.map _ s.myPicks.dropLast_sublist).append_right _
    | undraft s pid _ ih =>
      unfold undraftOther
      simp only [allDraftedIds, getDraftedIds] at ih ⊢
      refine List.Nodup.sublist ?_ ih
      exact (List.filter_sublist _).append_left _

/-- C10 witness: after drafting id "a" into the empty state, drafting "a"
again is a no-op, and the reachable state has duplicate-free ids. -/
theorem draftState_no_duplicates_witness :
    ((getDraftedIds (draftForMe createEmptyDraftState ("a") 1)).contains ("a") = true) ∧
    draftForMe (draftForMe createEmptyDraftState ("a") 1) ("a") 2
      = draftForMe createEmptyDraftState ("a") 1 ∧
    (allDraftedIds (draftForMe createEmptyDraftState ("a") 1)).Nodup :=
  ⟨by with_unfolding_all decide,
   (draftState_no_duplicates.1 (draftForMe createEmptyDraftState ("a") 1) ("a") 2
      (by with_unfolding_all decide)).1,
   draftState_no_duplicates.2 (draftForMe createEmptyDraftState ("a") 1)
     (ReachableDraftState.me createEmptyDraftState ("a") 1 ReachableDraftState.empty)⟩

-- ── League Distribution Simulator (src/lib/simulation.ts) ─────────

/-- JavaScript `ToUint32` of an integer-valued number. -/
def toUint32 (x : ℤ) : ℕ := (x % 4294967296).toNat

/-- JavaScript `ToInt32` of an integer-valued number. -/
def toInt32 (x : ℤ) : ℤ :=
  let u := x % 4294967296
  if u ≥ 2147483648 then u - 4294967296 else u

/-- JavaScript `x >>> n` (unsigned right shift). -/
def jsShru (x : ℤ) (n : Nat) : ℕ := toUint32 x >>> n

/-- JavaScript 32-bit `^` on integer-valued numbers. -/
def jsXor (a b : ℤ) : ℤ := toInt32 (Int.ofNat (Nat.xor (toUint32 a) (toUint32 b)))

/-- JavaScript 32-bit `|` on integer-valued numbers. -/
def jsOr (a b : ℤ) : ℤ := toInt32 (Int.ofNat (Nat.lor (toUint32 a) (toUint32 b)))

/-- JavaScript `Math.imul`. -/
def jsImul (a b : ℤ) : ℤ := toInt32 (toInt32 a * toInt32 b)

/-- One step of the `mulberry32` PRNG from `src/lib/simulation.ts`, with
the closure's captured seed threaded explicitly: returns the uniform
sample in [0, 1) and the updated seed. -/
def mulberry32Step (seed : ℤ) : ℚ × ℤ :=
  let s := seed + 0x6d2b79f5
  let t1 := jsImul (jsXor s (Int.ofNat (jsShru s 15))) (jsOr s 1)
  let t2 := jsXor t1 (t1 + jsImul (jsXor t1 (Int.ofNat (jsShru t1 7))) (jsOr t1 61))
  let out := toUint32 (jsXor t2 (Int.ofNat (jsShru t2 14)))
  ((out : ℚ) / 4294967296, s)

/-- The `while (u === 0) u = rng()` loop of `randn`, with explicit fuel;
the fuel (2^32 − 1 draws at the call sites) covers the full period of the
32-bit generator. -/
def drawNonzero : Nat → ℤ → ℚ × ℤ
  | 0, seed => mulberry32Step seed
  | fuel + 1, seed =>
    let r := mulberry32Step seed
    if r.1 = 0 then drawNonzero fuel r.2 else r

/-- Shallow embedding of `randn` (Box–Muller) from `src/lib/simulation.ts`.
The transcendental combination `sqrt(-2 ln u) · cos(2π v)` is an abstract
parameter `gauss` of the two uniform draws: the simulator's structure and
determinism do not depend on it. -/
def randn (gauss : ℚ → ℚ → ℚ) (seed : ℤ) : ℚ × ℤ :=
  let (u, s1) := drawNonzero 4294967295 seed
  let (v, s2) := drawNonzero 4294967295 s1
  (gauss u v, s2)

/-- Shallow embedding of `snakeTeamIndex` from `src/lib/simulation.ts`. -/
def snakeTeamIndex (pickIndex numTeams : Nat) : Nat :=
  let round := pickIndex / numTeams
  let pos := pickIndex % numTeams
  if round % 2 = 0 then pos else numTeams - 1 - pos

/-- JavaScript `Math.round` (half toward positive infinity). -/
def jsRound (x : ℚ) : ℤ := ⌊x + 1 / 2⌋

/-- Shallow embedding of `classifyTeamTargets` from `src/lib/simulation.ts`:
(hitter target, pitcher target, roster size). -/
def classifyTeamTargets (settings : LeagueSettings) : Nat × Nat × Nat :=
  let slots := settings.rosterConfig.slots
  let counts := slots.foldl
    (fun (acc : Nat × Nat × Nat) s =>
      let label := s.label.toUpper
      if label.startsWith ("BN") then (acc.1, acc.2.1, acc.2.2 + 1)
      else
        let elig := s.eligiblePositions.map (fun p => p.toUpper)
        let isPitcherSlot := label == "P" || elig.contains ("SP")
          || elig.contains ("RP") || elig.contains ("P")
        if isPitcherSlot then (acc.1, acc.2.1 + 1, acc.2.2)
        else (acc.1 + 1, acc.2.1, acc.2.2))
    (0, 0, 0)
  let hitterStart := counts.1
  let pitcherStart := counts.2.1
  let bench := counts.2.2
  let totalStart := hitterStart + pitcherStart
  let benchH := if totalStart > 0
    then (jsRound (((bench * hitterStart : Nat) : ℚ) / (totalStart : ℚ))).toNat
    else 0
  let benchP := bench - benchH
  (hitterStart + benchH, pitcherStart + benchP, slots.length)

/-- `baseRank` from `simulateLeagueDistributions`:
`p.overallRank ?? p.ADP ?? 999999`. -/
def baseRank (p : Player) : ℚ := p.overallRank.getD (p.ADP.getD 999999)

/-- The stochastic draft order of one simulation iteration: each player's
key is base rank plus scaled noise (the PRNG state threads left to right
through the `map`), then an ascending stable sort by score. -/
def stochasticOrder (gauss : ℚ → ℚ → ℚ) (randomness : ℚ)
    (players : List Player) (seed : ℤ) : List Player × ℤ :=
  let scored := players.foldl
    (fun (acc : List (Player × ℚ) × ℤ) p =>
      let (n, s2) := randn gauss acc.2
      (acc.1 ++ [(p, baseRank p + n * randomness)], s2))
    ([], seed)
  ((sortByCmp (fun a b => a.2 - b.2) scored.1).map (fun x => x.1), scored.2)

/-- The mutable state of the simulated snake draft. -/
structure SimDraftState where
  remaining : List Player
  teams : List (List Player)
  teamH : List Nat
  teamP : List Nat

/-- One pick of the simulated snake draft from `simulateLeagueDistributions`. -/
def simPickStep (hitterTarget pitcherTarget numTeams : Nat)
    (st : SimDraftState) (pick : Nat) : SimDraftState :=
  let team := snakeTeamIndex pick numTeams
  let needH := st.teamH.getD team 0 < hitterTarget
  let needP := st.teamP.getD team 0 < pitcherTarget
  let desired : Option Role :=
    if needH ∧ ¬ needP then some Role.hitter
    else if needP ∧ ¬ needH then some Role.pitcher
    else if needH ∧ needP then
      let hDef := ((hitterTarget - st.teamH.getD team 0 : Nat) : ℚ) / ((max 1 hitterTarget : Nat) : ℚ)
      let pDef := ((pitcherTarget - st.teamP.getD team 0 : Nat) : ℚ) / ((max 1 pitcherTarget : Nat) : ℚ)
      if pDef > hDef then some Role.pitcher else some Role.hitter
    else none
  let chosenIdx : Nat :=
    match desired with
    | none => 0
    | some role =>
      match st.remaining.findIdx? (fun q => q.hitterOrPitcher = role) with
      | some i => i
      | none => 0
  match st.remaining.get? chosenIdx with
  | none => st
  | some chosen =>
    { remaining := st.remaining.eraseIdx chosenIdx,
      teams := st.teams.set team (st.teams.getD team [] ++ [chosen]),
      teamH := if chosen.hitterOrPitcher = Role.hitter
        then st.teamH.set team (st.teamH.getD team 0 + 1) else st.teamH,
      teamP := if chosen.hitterOrPitcher = Role.pitcher
        then st.teamP.set team (st.teamP.getD team 0 + 1) else st.teamP }

/-- One full iteration of the simulated draft: stochastic order, then the
snake-draft pick loop; returns the team rosters and the updated PRNG seed. -/
def simIteration (gauss : ℚ → ℚ → ℚ) (randomness : ℚ) (numTeams : Nat)
    (hitterTarget pitcherTarget rosterSize : Nat) (players : List Player)
    (seed : ℤ) : List (List Player) × ℤ :=
  let (draftOrder, s1) := stochasticOrder gauss randomness players seed
  let totalPicks := numTeams * rosterSize
  let init : SimDraftState :=
    { remaining := draftOrder,
      teams := List.replicate numTeams [],
      teamH := List.replicate numTeams 0,
      teamP := List.replicate numTeams 0 }
  let final := (List.range totalPicks).foldl
    (simPickStep hitterTarget pitcherTarget numTeams) init
  (final.teams, s1)

/-- Category distribution record from `src/lib/simulation.ts`. -/
structure CategoryDistribution where
  mean : ℚ
  std : ℚ
deriving DecidableEq

/-- Result record of the simulator; the per-category record becomes an
association list in category order. -/
structure LeagueCategoryDistributions where
  samples : Nat
  categories : List (String × CategoryDistribution)
deriving DecidableEq

/-- The per-category summary computed after all iterations of
`simulateLeagueDistributions`: mean = sum / max(1, n); sample variance
with the (n−1) divisor when n > 1, else 0; `Math.sqrt(variance) || 1`
becomes `if sqrtf variance = 0 then 1 else sqrtf variance`, with the
square root an abstract parameter `sqrtf`. -/
def summarizeVals (sqrtf : ℚ → ℚ) (vals : List ℚ) : CategoryDistribution :=
  let mean := vals.foldl (fun s v => s + v) 0 / ((max 1 vals.length : Nat) : ℚ)
  let variance :=
    if vals.length > 1 then
      vals.foldl (fun s v => s + (v - mean) * (v - mean)) 0 / ((vals.length - 1 : Nat) : ℚ)
    else 0
  let std0 := sqrtf variance
  { mean := mean, std := if std0 = 0 then 1 else std0 }

/-- The options record of `simulateLeagueDistributions`. -/
structure SimOptions where
  iterations : Option Nat := none
  seed : Option ℤ := none
  randomness : Option ℚ := none

/-- Shallow embedding of `simulateLeagueDistributions` from
`src/lib/simulation.ts` (noise and square root abstracted as `gauss` and
`sqrtf`; the module-level PRNG closure threads its seed by value). -/
def simulateLeagueDistributions (gauss : ℚ → ℚ → ℚ) (sqrtf : ℚ → ℚ)
    (allPlayers : List Player) (settings : LeagueSettings)
    (opts : SimOptions) : LeagueCategoryDistributions :=
  let iterations := opts.iterations.getD 160
  let seed := opts.seed.getD 1337
  let randomness := opts.randomness.getD 14
  let activeCategories := settings.categories.filter (fun c => c.enabled)
  let targets := classifyTeamTargets settings
  let allTeams :=
    ((List.range iterations).foldl
      (fun (acc : List (List Player) × ℤ) _ =>
        let (teams, s') := simIteration gauss randomness settings.numTeams
          targets.1 targets.2.1 targets.2.2 allPlayers acc.2
        (acc.1 ++ teams, s'))
      ([], seed)).1
  let perTeamTotals := allTeams.map
    (fun team =>
      computeRosterTotalsFromSlots
        (assignPlayersToSlots team (expandRosterSlots settings.rosterConfig))
        settings.benchMultiplier)
  let categories := activeCategories.map
    (fun c => (c.key, summarizeVals sqrtf (perTeamTotals.map (fun t => getCategoryValue t c.key))))
  let samples := activeCategories.foldl (fun m _ => max m perTeamTotals.length) 0
  { samples := samples, categories := categories }

-- ── C4 ────────────────────────────────────────────────────────────

/-- C4: the simulator is reproducible — two runs on the same catalog and
settings with options agreeing on seed, iterations and randomness scale
return the same samples count and identical (mean, std) for every
category. All state (the PRNG seed) is threaded by value, so the result is
a function of the inputs alone. -/
theorem simulateLeagueDistributions_deterministic
    (gauss : ℚ → ℚ → ℚ) (sqrtf : ℚ → ℚ) (catalog : List Player)
    (settings : LeagueSettings) (o1 o2 : SimOptions)
    (hiter : o1.iterations = o2.iterations) (hseed : o1.seed = o2.seed)
    (hrand : o1.randomness = o2.randomness) :
    (simulateLeagueDistributions gauss sqrtf catalog settings o1).samples
      = (simulateLeagueDistributions gauss sqrtf catalog settings o2).samples ∧
    (simulateLeagueDistributions gauss sqrtf catalog settings o1).categories
      = (simulateLeagueDistributions gauss sqrtf catalog settings o2).categories := by
  obtain ⟨i1, s1, r1⟩ := o1
  obtain ⟨i2, s2, r2⟩ := o2
  simp only at hiter hseed hrand
  subst hiter; subst hseed; subst hrand
  exact ⟨rfl, rfl⟩

/-- A minimal concrete settings value for the C4 witness. -/
def tinySettings : LeagueSettings :=
  { numTeams := 1,
    categories := [{ key := "HR", label := "Home Runs", higherIsBetter := true,
                     enabled := true, isHitterCat := true }],
    rosterConfig := { slots :=
      [{ label := "UTIL",
         eligiblePositions := ["C", "1B", "2B", "3B", "SS", "OF", "DH"] }] },
    targets := fun _ => none,
    useOBP := false,
    benchMultiplier := 1 / 5,
    competitiveThresholdZ := 0 }

/-- C4 witness: a concrete double run with equal options. -/
theorem simulateLeagueDistributions_deterministic_witness :
    (simulateLeagueDistributions (fun _ _ => 0) (fun _ => 0) [] tinySettings
        { iterations := some 1, seed := some 2, randomness := some 3 }).samples
      = (simulateLeagueDistributions (fun _ _ => 0) (fun _ => 0) [] tinySettings
        { iterations := some 1, seed := some 2, randomness := some 3 }).samples ∧
    (simulateLeagueDistributions (fun _ _ => 0) (fun _ => 0) [] tinySettings
        { iterations := some 1, seed := some 2, randomness := some 3 }).categories
      = (simulateLeagueDistributions (fun _ _ => 0) (fun _ => 0) [] tinySettings
        { iterations := some 1, seed := some 2, randomness := some 3 }).categories :=
  simulateLeagueDistributions_deterministic (fun _ _ => 0) (fun _ => 0) [] tinySettings
    { iterations := some 1, seed := some 2, randomness := some 3 }
    { iterations := some 1, seed := some 2, randomness := some 3 }
    rfl rfl rfl

-- ── C5 ────────────────────────────────────────────────────────────

theorem foldl_add_id (l : List ℚ) (a : ℚ) :
    l.foldl (fun s v => s + v) a = a + l.sum := by
  induction l generalizing a with
  | nil => simp
  | cons x xs ih =>
    simp only [List.foldl_cons, List.sum_cons]
    rw [ih]
    ring

/-- C5: the per-category distribution built by the simulator has mean equal
to the sample average, standard deviation from the (n−1)-divisor sample
variance when n > 1 (and from variance 0 otherwise), and its std is always
strictly positive: a computed standard deviation of 0 is replaced by 1.
Assumes only that the square-root function is nonnegative on nonnegative
inputs, as `Math.sqrt` is. -/
theorem summarizeVals_correct (sqrtf : ℚ → ℚ)
    (hs : ∀ x : ℚ, 0 ≤ x → 0 ≤ sqrtf x) (vals : List ℚ) (hne : vals ≠ []) :
    (summarizeVals sqrtf vals).mean = vals.sum / vals.length ∧
    (1 < vals.length →
      (summarizeVals sqrtf vals).std =
        (if sqrtf ((vals.map (fun v => (v - vals.sum / vals.length) ^ 2)).sum
              / ((vals.length : ℚ) - 1)) = 0
         then 1
         else sqrtf ((vals.map (fun v => (v - vals.sum / vals.length) ^ 2)).sum
              / ((vals.length : ℚ) - 1)))) ∧
    (vals.length ≤ 1 →
      (summarizeVals sqrtf vals).std = if sqrtf 0 = 0 then 1 else sqrtf 0) ∧
    0 < (summarizeVals sqrtf vals).std := by
  have hlen : 1 ≤ vals.length := by
    cases vals with
    | nil => exact absurd rfl hne
    | cons x xs => simp
  have hmax : (max 1 vals.length : Nat) = vals.length := Nat.max_eq_right hlen
  have h0 : vals.foldl (fun s v => s + v) 0 / ((max 1 vals.length : Nat) : ℚ)
      = vals.sum / vals.length := by
    rw [foldl_add_id, hmax]
    simp
  have hvar : ∀ mean : ℚ,
      vals.foldl (fun s v => s + (v - mean) * (v - mean)) 0
        = (vals.map (fun v => (v - mean) ^ 2)).sum := by
    intro mean
    rw [show (fun (s : ℚ) v => s + (v - mean) * (v - mean))
        = (fun (s : ℚ) v => s + (fun w => (w - mean) ^ 2) v) from by
      funext s v; ring]
    rw [foldl_add_eq_sum (fun w => (w - mean) ^ 2) vals 0]
    simp
  have hvarnn : ∀ mean : ℚ, 0 ≤ (vals.map (fun v => (v - mean) ^ 2)).sum := by
    intro mean
    apply List.sum_nonneg
    intro x hx
    obtain ⟨v, -, hv⟩ := List.mem_map.mp hx
    rw [← hv]
    positivity
  have hcast : ((vals.length - 1 : Nat) : ℚ) = (vals.length : ℚ) - 1 := by
    push_cast [Nat.cast_sub hlen]
    ring
  refine ⟨?_, ?_, ?_, ?_⟩
  · simp only [summarizeVals, h0]
  · intro hgt
    simp only [summarizeVals, h0, if_pos hgt, hvar, hcast]
  · intro hle
    have hngt : ¬ (vals.length > 1) := by omega
    simp only [summarizeVals, h0, if_neg hngt]
  · simp only [summarizeVals, h0]
    by_cases hgt : vals.length > 1
    · simp only [if_pos hgt, hvar, hcast]
      set variance := (vals.map (fun v => (v - vals.sum / vals.length) ^ 2)).sum
          / ((vals.length : ℚ) - 1) with hv
      have hvnn : 0 ≤ variance := by
        rw [hv]
        apply div_nonneg (hvarnn _)
        have : (1 : ℚ) < vals.length := by exact_mod_cast hgt
        linarith
      have hstd0 : 0 ≤ sqrtf variance := hs variance hvnn
      by_cases hz : sqrtf variance = 0
      · simp only [hz, if_pos rfl]
        norm_num
      · simp only [if_neg hz]
        exact lt_of_le_of_ne hstd0 (Ne.symm hz)
    · simp only [if_neg hgt]
      have hstd0 : 0 ≤ sqrtf 0 := hs 0 (le_refl 0)
      by_cases hz : sqrtf 0 = 0
      · simp only [hz, if_pos rfl]
        norm_num
      · simp only [if_neg hz]
        exact lt_of_le_of_ne hstd0 (Ne.symm hz)

/-- C5 witness: a concrete three-sample list with the zero square root
(which satisfies the nonnegativity hypothesis) gives a strictly positive
std. -/
theorem summarizeVals_correct_witness :
    (([(1 : ℚ), 2, 3] : List ℚ) ≠ []) ∧
    0 < (summarizeVals (fun _ => (0 : ℚ)) [1, 2, 3]).std :=
  ⟨by simp,
   (summarizeVals_correct (fun _ => 0) (fun _ _ => le_refl 0) [1, 2, 3]
     (by simp)).2.2.2⟩

-- ── Defaults (src/lib/defaults.ts) ────────────────────────────────

/-- `DEFAULT_TARGETS` from `src/lib/defaults.ts` as a keyed lookup. -/
def DEFAULT_TARGETS (k : String) : Option ℚ :=
  match k with
  | "R" => some 850
  | "HR" => some 220
  | "RBI" => some 830
  | "SB" => some 120
  | "AVG" => some 0.265
  | "OBP" => some 0.340
  | "W" => some 70
  | "SV" => some 75
  | "K" => some 1200
  | "ERA" => some 3.70
  | "WHIP" => some 1.18
  | "QS" => some 80
  | "HLD" => some 60
  | _ => none

/-- `DEFAULT_STDEVS` from `src/lib/defaults.ts` as a keyed lookup. -/
def DEFAULT_STDEVS (k : String) : Option ℚ :=
  match k with
  | "R" => some 65
  | "HR" => some 30
  | "RBI" => some 60
  | "SB" => some 30
  | "AVG" => some 0.012
  | "OBP" => some 0.012
  | "W" => some 10
  | "SV" => some 20
  | "K" => some 120
  | "ERA" => some 0.40
  | "WHIP" => some 0.06
  | "QS" => some 12
  | "HLD" => some 15
  | _ => none

-- ── Recommendation Engine (src/lib/recommend.ts) ──────────────────

/-- `POSITION_SCARCITY_BONUS` from `src/lib/recommend.ts`. -/
def positionScarcityBonus (pos : String) : Option ℚ :=
  match pos with
  | "C" => some 0.15
  | "SS" => some 0.08
  | "2B" => some 0.05
  | "3B" => some 0.03
  | "1B" => some 0
  | "OF" => some 0
  | "SP" => some 0.05
  | "RP" => some 0.02
  | "DH" => some (-0.05)
  | _ => none

/-- Shallow embedding of `clamp01` (`Number.isFinite` always holds in ℚ). -/
def clamp01 (value : ℚ) : ℚ := max 0 (min 1 value)

/-- Shallow embedding of `applyRiskForScoring` from `src/lib/recommend.ts`. -/
def applyRiskForScoring (player : Player) (riskTolerance : ℚ) : Player :=
  let r := clamp01 (player.risk.getD 0.3)
  let t := clamp01 riskTolerance
  let floorScale := 1 - r * 0.28
  let ceilScale := 1 + r * 0.10
  let scale := floorScale + (ceilScale - floorScale) * t
  if |scale - 1| < 1 / 1000000 then player
  else
    match player.hitterOrPitcher with
    | Role.hitter =>
      { player with
          AB := player.AB.map (fun v => v * scale),
          H := player.H.map (fun v => v * scale),
          R := player.R.map (fun v => v * scale),
          HR := player.HR.map (fun v => v * scale),
          RBI := player.RBI.map (fun v => v * scale),
          SB := player.SB.map (fun v => v * scale),
          BB := player.BB.map (fun v => v * scale),
          HBP := player.HBP.map (fun v => v * scale),
          SF := player.SF.map (fun v => v * scale) }
    | Role.pitcher =>
      { player with
          IP := player.IP.map (fun v => v * scale),
          ER := player.ER.map (fun v => v * scale),
          HA := player.HA.map (fun v => v * scale),
          BBA := player.BBA.map (fun v => v * scale),
          W := player.W.map (fun v => v * scale),
          SV := player.SV.map (fun v => v * scale),
          K := player.K.map (fun v => v * scale),
          QS := player.QS.map (fun v => v * scale),
          HLD := player.HLD.map (fun v => v * scale) }

/-- Shallow embedding of `canFillSlot` from `src/lib/recommend.ts`. -/
def canFillSlot (player : Player) (openSlots : List RosterSlot) : Bool :=
  openSlots.any (fun slot =>
    slot.player.isNone &&
    player.positions.any (fun pos => slot.eligiblePositions.contains pos))

/-- Shallow embedding of `positionScarcityScore` from `src/lib/recommend.ts`. -/
def positionScarcityScore (player : Player) (openSlots : List RosterSlot) : ℚ :=
  let fillableSlots := openSlots.filter (fun slot =>
    slot.player.isNone &&
    player.positions.any (fun pos => slot.eligiblePositions.contains pos))
  let positionSlots := openSlots.filter (fun slot =>
    slot.player.isNone &&
    !(slot.label.startsWith ("BN")) &&
    !(slot.label.startsWith ("UTIL")) &&
    player.positions.any (fun pos => slot.eligiblePositions.contains pos))
  let bonus := player.positions.foldl
    (fun b pos => max b ((positionScarcityBonus pos).getD 0)) 0
  let bonus := if positionSlots.length = 1 then bonus + 0.1 else bonus
  let bonus := if 0 < fillableSlots.length ∧
      fillableSlots.all (fun s => s.label.startsWith ("BN")) = true
    then bonus - 0.1 else bonus
  bonus

/-- Association-list lookup standing in for JS record access. -/
def lookupQ {α : Type} (l : List (String × α)) (k : String) : Option α :=
  (l.find? (fun kv => kv.1 == k)).map (fun kv => kv.2)

/-- Shallow embedding of `computeCategoryWeights` from `src/lib/recommend.ts`. -/
def computeCategoryWeights (currentZ : List (String × ℚ))
    (categories : List CategoryDef) (threshold : ℚ) : List (String × ℚ) :=
  categories.map (fun c =>
    let z := (lookupQ currentZ c.key).getD 0
    let deficit := threshold - z
    let boost := if deficit > 0 then 1 + 0.55 * min deficit 2.5 else 1
    let dampen := if z > threshold + 1.5 then 1 - 0.25 else 1
    (c.key, max 0.4 (min 2.8 (boost * dampen))))

/-- Per-category (before, after, delta) record. -/
structure Impact where
  before : ℚ
  after : ℚ
  delta : ℚ
deriving DecidableEq

/-- Shallow embedding of the `Recommendation` record from `src/lib/types.ts`;
the keyed records become association lists in category order. -/
structure Recommendation where
  player : Player
  totalZGain : ℚ
  categoryImpact : List (String × Impact)
  rawImpact : List (String × Impact)
  explanation : String
  positionNote : String

/-- The `leagueDists?.categories?.[key]` lookup. -/
def distLookup (dists : Option LeagueCategoryDistributions) (k : String) :
    Option CategoryDistribution :=
  dists.bind (fun d => (d.categories.find? (fun kv => kv.1 == k)).map (fun kv => kv.2))

/-- The mean fallback chain: simulated mean, settings target, default
target, 0. -/
def meanFor (settings : LeagueSettings)
    (dists : Option LeagueCategoryDistributions) (k : String) : ℚ :=
  ((((distLookup dists k).map (fun d => d.mean)).or
    (settings.targets k)).or (DEFAULT_TARGETS k)).getD 0

/-- The std fallback chain: simulated std, default spread, 1. -/
def stdFor (dists : Option LeagueCategoryDistributions) (k : String) : ℚ :=
  (((distLookup dists k).map (fun d => d.std)).or (DEFAULT_STDEVS k)).getD 1

/-- Shallow embedding of `generateExplanation` from `src/lib/recommend.ts`. -/
def generateExplanation (player : Player) (impact : List (String × Impact))
    (categories : List CategoryDef) (currentZScores : List (String × ℚ))
    (thresholdZ : ℚ) : String :=
  let improvements := sortByCmp
    (fun a b => (((lookupQ impact b.key).map (fun i => i.delta)).getD 0)
      - (((lookupQ impact a.key).map (fun i => i.delta)).getD 0))
    (categories.filter (fun c =>
      match lookupQ impact c.key with
      | some i => decide (i.delta > 0.01)
      | none => false))
  let behindCats := (categories.filter
    (fun c => decide ((lookupQ currentZScores c.key).getD 0 < thresholdZ))).map
    (fun c => c.label)
  let aheadCats := (categories.filter
    (fun c => decide ((lookupQ currentZScores c.key).getD 0 > thresholdZ + 0.9))).map
    (fun c => c.label)
  let parts : List String := []
  let parts := if 0 < improvements.length then
      parts ++ ["Boosts " ++ String.intercalate (", ")
        ((improvements.take 3).map (fun c => c.label))]
    else parts
  let parts := if 0 < behindCats.length ∧ improvements.any
      (fun c => decide ((lookupQ currentZScores c.key).getD 0 < thresholdZ)) = true then
      let helpsBehind := (improvements.filter
        (fun c => decide ((lookupQ currentZScores c.key).getD 0 < thresholdZ))).map
        (fun c => c.label)
      if 0 < helpsBehind.length then
        parts ++ ["where you need it most (" ++ String.intercalate (", ") helpsBehind ++ ")"]
      else parts
    else parts
  let parts := if 0 < aheadCats.length then
      parts ++ ["You can wait on " ++ String.intercalate (", ") (aheadCats.take 2)
        ++ " — already competitive there"]
    else parts
  String.intercalate (". ") parts ++ "."

/-- Shallow embedding of `generatePositionNote` from `src/lib/recommend.ts`. -/
def generatePositionNote (player : Player) (openSlots : List RosterSlot) : String :=
  let fillable := (openSlots.filter (fun slot =>
    slot.player.isNone &&
    player.positions.any (fun pos => slot.eligiblePositions.contains pos))).map
    (fun s => s.label)
  let nonBench := fillable.filter (fun l => !(l.startsWith ("BN")))
  if 0 < nonBench.length then ("Fills ") ++ nonBench.headD ("") ++ (" slot")
  else if 0 < fillable.length then ("Bench spot")
  else ("No open slot")

/-- The per-candidate body of the scoring loop in `getRecommendations`:
`none` when the candidate is skipped (no open slot fits, or the assigner
leaves the risk-adjusted candidate unassigned). Divisions by a zero length
(NaN in JS, making the `< 0.3` comparison false) are guarded by
`0 < emptySlots.length`. -/
def scoreCandidate (settings : LeagueSettings) (activeCategories : List CategoryDef)
    (dists : Option LeagueCategoryDistributions)
    (currentZScores catWeights : List (String × ℚ)) (currentTotals : RosterTotals)
    (emptySlots openSlots : List RosterSlot) (myDraftedPlayers : List Player)
    (riskTolerance : ℚ) (currentOverallPick : Option ℚ) (player : Player) :
    Option Recommendation :=
  if 0 < openSlots.length ∧ canFillSlot player openSlots = false then none
  else
    let scoringPlayer := applyRiskForScoring player riskTolerance
    let nextPlayers := myDraftedPlayers ++ [scoringPlayer]
    let nextAssigned := assignPlayersToSlots nextPlayers emptySlots
    let isAssigned := nextAssigned.any (fun s =>
      match s.player with
      | some q => q.playerId == scoringPlayer.playerId
      | none => false)
    if isAssigned = false then none
    else
      let newTotals := computeRosterTotalsFromSlots nextAssigned settings.benchMultiplier
      let catAcc := activeCategories.foldl
        (fun (acc : List (String × Impact) × List (String × Impact) × ℚ) cat =>
          let mean := meanFor settings dists cat.key
          let std := stdFor dists cat.key
          let valForZ := getCategoryValueForZ newTotals cat.key mean
          let newZ := computeZScore valForZ mean std cat.higherIsBetter
          let oldZ := (lookupQ currentZScores cat.key).getD 0
          let delta := newZ - oldZ
          let beforeRaw := getCategoryValue currentTotals cat.key
          let afterRaw := getCategoryValue newTotals cat.key
          let weight := (lookupQ catWeights cat.key).getD 1
          (acc.1 ++ [(cat.key, { before := oldZ, after := newZ, delta := delta })],
           acc.2.1 ++ [(cat.key, { before := beforeRaw, after := afterRaw,
                                   delta := afterRaw - beforeRaw })],
           acc.2.2 + delta * weight))
        ([], [], 0)
      let categoryImpact := catAcc.1
      let rawImpact := catAcc.2.1
      let g0 := catAcc.2.2
      let g1 := g0 + positionScarcityScore player openSlots
      let rosterFillPct := (myDraftedPlayers.length : ℚ) / (emptySlots.length : ℚ)
      let g2 := if 0 < emptySlots.length ∧ rosterFillPct < 0.3 then
          let categoriesHelped :=
            (categoryImpact.filter (fun kv => decide (kv.2.delta > 0.02))).length
          g1 + ((categoriesHelped : ℚ) / (activeCategories.length : ℚ)) * 0.3
            * (1 - rosterFillPct)
        else g1
      let playerRisk := clamp01 (player.risk.getD 0.3)
      let conservativePenalty := playerRisk * (1 - riskTolerance) * 0.55
      let upsideBonus := playerRisk * riskTolerance * 0.12
      let g3 := g2 + upsideBonus - conservativePenalty
      let g4 :=
        match player.ADP with
        | none => g3
        | some adp =>
          if adp = 0 then g3
          else
            let adpBonus := max 0 ((150 - adp) / 150) * 0.5
            let g4a := g3 + adpBonus
            match currentOverallPick with
            | none => g4a
            | some pick =>
              if pick = 0 then g4a
              else
                let adpDiff := adp - pick
                if adpDiff > 20 then g4a - min 0.25 ((adpDiff - 20) / 80 * 0.2)
                else g4a
      some { player := player,
             totalZGain := g4,
             categoryImpact := categoryImpact,
             rawImpact := rawImpact,
             explanation := generateExplanation player categoryImpact activeCategories
               currentZScores settings.competitiveThresholdZ,
             positionNote := generatePositionNote player openSlots }

/-- The scored candidate list of `getRecommendations`, before sorting. -/
def recommendationCandidates (availablePlayers myDraftedPlayers : List Player)
    (settings : LeagueSettings) (leagueDists : Option LeagueCategoryDistributions)
    (riskTolerance : ℚ) (currentOverallPick : Option ℚ) : List Recommendation :=
  let activeCategories := settings.categories.filter (fun c => c.enabled)
  let emptySlots := expandRosterSlots settings.rosterConfig
  let currentAssigned := assignPlayersToSlots myDraftedPlayers emptySlots
  let openSlots := getOpenSlots currentAssigned
  let currentTotals := computeRosterTotalsFromSlots currentAssigned settings.benchMultiplier
  let currentZScores := activeCategories.map (fun cat =>
    let mean := meanFor settings leagueDists cat.key
    let std := stdFor leagueDists cat.key
    (cat.key, computeZScore (getCategoryValueForZ currentTotals cat.key mean)
      mean std cat.higherIsBetter))
  let catWeights := computeCategoryWeights currentZScores activeCategories
    settings.competitiveThresholdZ
  availablePlayers.filterMap
    (scoreCandidate settings activeCategories leagueDists currentZScores catWeights
      currentTotals emptySlots openSlots myDraftedPlayers riskTolerance
      currentOverallPick)

/-- Shallow embedding of `getRecommendations` from `src/lib/recommend.ts`:
score every available candidate, sort descending by total weighted z-gain,
return the first `topN`. -/
def getRecommendations (availablePlayers myDraftedPlayers : List Player)
    (settings : LeagueSettings) (leagueDists : Option LeagueCategoryDistributions)
    (riskTolerance : ℚ) (currentOverallPick : Option ℚ) (topN : Nat) :
    List Recommendation :=
  (sortByCmp (fun a b => b.totalZGain - a.totalZGain)
    (recommendationCandidates availablePlayers myDraftedPlayers settings leagueDists
      riskTolerance currentOverallPick)).take topN

-- ── C7 ────────────────────────────────────────────────────────────

theorem sortByCmp_sorted_gain (l : List Recommendation) :
    (sortByCmp (fun a b => b.totalZGain - a.totalZGain) l).Pairwise
      (fun a b => b.totalZGain ≤ a.totalZGain) := by
  unfold sortByCmp
  haveI : IsTotal Recommendation
      (fun a b => (fun a b : Recommendation => b.totalZGain - a.totalZGain) a b ≤ 0) := by
    constructor
    intro a b
    by_cases h : b.totalZGain ≤ a.totalZGain
    · left
      show b.totalZGain - a.totalZGain ≤ 0
      linarith
    · right
      show a.totalZGain - b.totalZGain ≤ 0
      linarith
  haveI : IsTrans Recommendation
      (fun a b => (fun a b : Recommendation => b.totalZGain - a.totalZGain) a b ≤ 0) := by
    constructor
    intro a b c hab hbc
    show c.totalZGain - a.totalZGain ≤ 0
    have h1 : b.totalZGain - a.totalZGain ≤ 0 := hab
    have h2 : c.totalZGain - b.totalZGain ≤ 0 := hbc
    linarith
  have h := List.sorted_insertionSort
    (fun a b => (fun a b : Recommendation => b.totalZGain - a.totalZGain) a b ≤ 0) l
  refine h.imp ?_
  intro a b hab
  have : b.totalZGain - a.totalZGain ≤ 0 := hab
  linarith

/-- C7: every recommendation list is sorted in descending order of total
weighted z-gain, and contains at most the requested number of entries. -/
theorem getRecommendations_sorted_topN (available myPlayers : List Player)
    (settings : LeagueSettings) (dists : Option LeagueCategoryDistributions)
    (riskTolerance : ℚ) (pick : Option ℚ) (topN : Nat) :
    (getRecommendations available myPlayers settings dists riskTolerance pick
      topN).Pairwise (fun a b => b.totalZGain ≤ a.totalZGain) ∧
    (getRecommendations available myPlayers settings dists riskTolerance pick
      topN).length ≤ topN := by
  constructor
  · exact List.Pairwise.sublist (List.take_sublist _ _) (sortByCmp_sorted_gain _)
  · unfold getRecommendations
    rw [List.length_take]
    exact min_le_left _ _

-- ── C8 ────────────────────────────────────────────────────────────

theorem foldr_max_pull (l : List ℚ) :
    ∀ a x : ℚ, l.foldr max (max a x) = max x (l.foldr max a) := by
  induction l with
  | nil => intro a x; exact max_comm a x
  | cons y ys ih =>
    intro a x
    simp only [List.foldr_cons]
    rw [ih]
    rw [max_left_comm]

theorem foldl_max_eq_foldr (l : List ℚ) :
    ∀ a : ℚ, l.foldl max a = l.foldr max a := by
  induction l with
  | nil => intro a; rfl
  | cons x xs ih =>
    intro a
    simp only [List.foldl_cons, List.foldr_cons]
    rw [ih (max a x), foldr_max_pull]

/-- The amended specification of the position-scarcity term: the maximum of
zero and the per-position scarcity bonuses, plus 0.1 exactly when exactly
one open non-"BN", non-"UTIL" slot accepts one of the candidate's
positions, minus 0.1 exactly when the candidate fits at least one open
slot and every such slot has a "BN" label. -/
def scarcitySpecAmended (player : Player) (openSlots : List RosterSlot) : ℚ :=
  let base := (player.positions.map
    (fun pos => (positionScarcityBonus pos).getD 0)).foldr max 0
  let fillable := openSlots.filter (fun slot =>
    slot.player.isNone &&
    player.positions.any (fun pos => slot.eligiblePositions.contains pos))
  let lastSlotCount := (openSlots.filter (fun slot =>
    slot.player.isNone &&
    !(slot.label.startsWith ("BN")) &&
    !(slot.label.startsWith ("UTIL")) &&
    player.positions.any (fun pos => slot.eligiblePositions.contains pos))).length
  let lastSlotBonus : ℚ := if lastSlotCount = 1 then 0.1 else 0
  let benchPenalty : ℚ := if 0 < fillable.length ∧
      fillable.all (fun s => s.label.startsWith ("BN")) = true then 0.1 else 0
  base + lastSlotBonus - benchPenalty

/-- C8 (amended): the position-scarcity term of the Recommendation Engine
equals the amended specification above. -/
theorem positionScarcityScore_spec (p : Player) (openSlots : List RosterSlot) :
    positionScarcityScore p openSlots = scarcitySpecAmended p openSlots := by
  have hbase : p.positions.foldl
      (fun b pos => max b ((positionScarcityBonus pos).getD 0)) 0
      = (p.positions.map (fun pos => (positionScarcityBonus pos).getD 0)).foldr max 0 := by
    rw [← List.foldl_map, foldl_max_eq_foldr]
  simp only [positionScarcityScore, scarcitySpecAmended, hbase]
  split_ifs <;> ring

/-- A hitter eligible only at designated hitter. -/
def dhOnlyHitter : Player :=
  { playerId := "dh1", name := "DH Only", team := "GGG",
    positions := ["DH"], hitterOrPitcher := Role.hitter }

/-- An open UTIL slot (the default template's utility slot). -/
def utilOpenSlot : RosterSlot :=
  { id := "UTIL_9", label := "UTIL",
    eligiblePositions := ["C", "1B", "2B", "3B", "SS", "OF", "DH"],
    player := none }

/-- C8 counterexample: for a DH-only candidate whose only open slot is the
UTIL slot, the code's scarcity term is 0, while the claim's "maximum
per-position scarcity bonus" is the DH entry −1/20 (the table's only entry
for this candidate) and neither of the claim's two adjustments applies
(there is no open non-bench, non-flex slot at all, and the fillable UTIL
slot is not a bench slot) — so the claim demands −1/20 ≠ 0. -/
theorem positionScarcityScore_claim_counterexample :
    positionScarcityScore dhOnlyHitter [utilOpenSlot] = 0 ∧
    (positionScarcityBonus ("DH")).getD 0 = -(1 / 20) ∧
    dhOnlyHitter.positions = ["DH"] ∧
    ([utilOpenSlot].filter (fun slot =>
      !(slot.label.startsWith ("BN")) && !(slot.label.startsWith ("UTIL"))
        && !(slot.label == "P"))).length = 0 ∧
    ([utilOpenSlot].all (fun s => s.label.startsWith ("BN"))) = false ∧
    ((0 : ℚ) ≠ -(1 / 20)) := by
  refine ⟨?_, ?_, ?_, ?_, ?_, ?_⟩ <;> with_unfolding_all decide

end DraftCoach
